import Mathlib

/-!
# Verification of the marclint validation engine

A shallow embedding of the MARC record linter described by the repository
specification.  The repository ships its test suite but not `linter.py` /
`warning.py` themselves, so the engine below is modelled from the
specification (section references in the doc comments), with the concrete
warning message texts taken from the assertions of the shipped tests.
All definitions are executable.
-/

set_option maxRecDepth 4000

namespace MarcLint

/-- Data model (spec §3): a subfield is a single-character code and a value. -/
structure Subfield where
  code : Char
  value : String
deriving DecidableEq, Repr

/-- Data model (spec §3): a field has a 3-character tag, a 2-character
indicator pair and ordered subfields; control fields carry `data` instead. -/
structure Field where
  tag : String
  ind1 : Char := ' '
  ind2 : Char := ' '
  subfields : List Subfield := []
  data : String := ""
deriving DecidableEq, Repr

/-- Data model (spec §3): a record is a leader string plus ordered fields. -/
structure Record where
  leader : String
  fields : List Field
deriving DecidableEq, Repr

/-- Modelled from the spec: `warning.py` is absent from the sources; the
structure and its fields follow spec §3 (Warning: field tag, optional
subfield code, optional occurrence position, message text, optional record
identifier) and the attribute names pinned by `tests/test_warning.py`. -/
structure MarcWarning where
  field : String
  subfield : Option Char := none
  position : Option Nat := none
  message : String
  record_id : Option String := none
deriving DecidableEq, Repr

/-- Shorthand constructor for a plain field-level warning. -/
def mw (f : String) (m : String) : MarcWarning := { field := f, message := m }

/-- Shorthand constructor for a subfield-level warning. -/
def mws (f : String) (c : Char) (m : String) : MarcWarning :=
  { field := f, subfield := some c, message := m }

/-! ## CodeTables (spec §2)

Modelled from the spec: the static reference tables are "supplied data, not
algorithmic work"; the entries below are a representative load (containing
every code exercised by the shipped tests) with the two-tier
current/obsolete/invalid shape required by spec §2. -/

/-- Modelled from the spec: current language codes (two-tier table, tier 1). -/
def LanguageCodes : List String :=
  ["eng", "fre", "ger", "spa", "jpn", "lat", "rus", "ita", "chi", "srp",
   "dut", "swe", "ara", "heb", "por"]

/-- Modelled from the spec: obsolete language codes (two-tier table, tier 2). -/
def ObsoleteLanguageCodes : List String := ["scc", "scr", "esk"]

/-- Modelled from the spec: current country codes. -/
def CountryCodes : List String :=
  ["xxu", "nyu", "cau", "enk", "fr ", "gw ", "ja ", "sp ", "it ", "ru ", "xx "]

/-- Modelled from the spec: obsolete country codes. -/
def ObsoleteCountryCodes : List String := ["cs ", "ur ", "iu "]

/-- Modelled from the spec: current geographic area codes. -/
def GeogAreaCodes : List String :=
  ["n-us---", "n-us-ca", "n-us-ny", "e-uk---", "a-ja---", "e-fr---",
   "e-gx---", "e-sp---"]

/-- Modelled from the spec: obsolete geographic area codes. -/
def ObsoleteGeogAreaCodes : List String := ["e-ur-ai", "e-ur-kz", "e-ur-uz"]

/-- Modelled from the spec: per-language article-word lists (spec §2, §4.3.4).
A language absent from this table has no article judgment at all. -/
def articleTable : String → Option (List String) := fun lg =>
  if lg = "eng" then some ["a", "an", "the"]
  else if lg = "fre" then some ["le", "la", "les", "un", "une", "des"]
  else if lg = "ger" then some ["das", "der", "die", "ein", "eine"]
  else if lg = "spa" then some ["el", "la", "los", "las", "un", "una"]
  else none

/-! ## ChecksumLibrary (spec §4.2) -/

/-- Digit value of a checksum character: `X`/`x` stands for 10 (spec §4.2). -/
def checkDigitVal (c : Char) : Nat :=
  if c = 'X' ∨ c = 'x' then 10 else c.toNat - '0'.toNat

/-- ISBN-10 shape: nine digits followed by a digit or `X`/`x` (spec §4.2). -/
def isbn10Shape (cs : List Char) : Bool :=
  cs.length = 10 ∧ (cs.take 9).all (·.isDigit) ∧
    cs.getLast?.any (fun c => c.isDigit ∨ c = 'X' ∨ c = 'x')

/-- ISBN-10 weighted sum, weights 10 down to 1 (spec §4.2). -/
def isbn10Sum : List Char → Nat → Nat
  | [], _ => 0
  | c :: rest, w => w * checkDigitVal c + isbn10Sum rest (w - 1)

/-- ISBN-10 validity: shape plus weighted sum divisible by 11 (spec §4.2). -/
def isbn10Valid (cs : List Char) : Bool :=
  isbn10Shape cs ∧ isbn10Sum cs 10 % 11 = 0

/-- ISBN-13 (EAN-13) alternating 1/3 weighted sum (spec §4.2). -/
def isbn13Sum : List Char → Bool → Nat
  | [], _ => 0
  | c :: rest, odd =>
      (if odd then 1 else 3) * checkDigitVal c + isbn13Sum rest (!odd)

/-- ISBN-13 validity: thirteen digits, alternating sum mod 10 = 0 (spec §4.2). -/
def isbn13Valid (cs : List Char) : Bool :=
  cs.length = 13 ∧ cs.all (·.isDigit) ∧ isbn13Sum cs true % 10 = 0

/-- ISSN weighted sum, weights 8 down to 1 over 8 characters (spec §4.2). -/
def issnSum : List Char → Nat → Nat
  | [], _ => 0
  | c :: rest, w => w * checkDigitVal c + issnSum rest (w - 1)

/-- ISSN shape after hyphen removal: seven digits plus digit or `X`/`x`. -/
def issnCoreShape (cs : List Char) : Bool :=
  cs.length = 8 ∧ (cs.take 7).all (·.isDigit) ∧
    cs.getLast?.any (fun c => c.isDigit ∨ c = 'X' ∨ c = 'x')

/-- ISSN checksum validity over the 8 hyphen-free characters (spec §4.2). -/
def issnValidCore (cs : List Char) : Bool :=
  issnCoreShape cs ∧ issnSum cs 8 % 11 = 0

/-! ## Standard number checker for 020 (spec §4.3) -/

/-- Extract the ISBN core token from a subfield value: strip hyphens, drop a
leading non-digit literal prefix, then take the run of digits (allowing a
trailing `X`/`x`) up to the qualifier (spec §4.3: "strip hyphens … and any
trailing parenthetical qualifier"). -/
def isbnToken (v : String) : List Char :=
  ((v.data.filter (· ≠ '-')).dropWhile (fun c => ¬ c.isDigit)).takeWhile
    (fun c => c.isDigit ∨ c = 'X' ∨ c = 'x')

/-- The hyphen-stripped value, for the invalid-character comparison. -/
def isbnStripped (v : String) : List Char := v.data.filter (· ≠ '-')

/-- True when the first `(` of the value is preceded by a space
(spec §4.3: "a qualifier not preceded by a space warns"). -/
def qualifierOk : List Char → Bool
  | [] => true
  | '(' :: _ => false
  | [_] => true
  | a :: '(' :: _ => a = ' '
  | _ :: rest => qualifierOk rest

/-- Numeric validity of an extracted ISBN token (10- or 13-digit). -/
def isbnNumValid (cs : List Char) : Bool := isbn10Valid cs ∨ isbn13Valid cs

/-- 020 `$z` trigger: the value opens with the literal `ISBN` or is
hyphenated (leading digits, a hyphen, then a digit), pinned by
`tests/test_020.py` ("must be hyphenated or start with ISBN to trigger
check", and `$z` `9876543210` staying silent although numerically valid). -/
def isbnZTrigger (v : String) : Bool :=
  (v.data.take 4 == ['I', 'S', 'B', 'N']) ||
    (match v.data.dropWhile (·.isDigit) with
     | '-' :: d :: _ => d.isDigit
     | _ => false)

/-- Modelled from the spec (§4.3 Standard Number, 020), one subfield at a
time: `$a` gets the qualifier-spacing check, the invalid-character check,
the digit-count check and the checksum check; `$z` (cancelled) warns
`is numerically valid.` when its value is recognizably ISBN-shaped and
checksum-correct. -/
def check020Sub (sf : Subfield) : List MarcWarning :=
  if sf.code = 'a' then
    let tok := isbnToken sf.value
    (if qualifierOk sf.value.data then []
     else [mws "020" 'a' "qualifier must be preceded by space"]) ++
    (if isbnStripped sf.value |>.take tok.length |>.beq tok then []
     else [mws "020" 'a' "may have invalid characters"]) ++
    (if isbn10Shape tok ∨ (tok.length = 13 ∧ tok.all (·.isDigit)) then
      (if tok.length = 10 then
        (if isbn10Valid tok then [] else [mws "020" 'a' "has bad checksum"])
       else
        (if isbn13Valid tok then [] else
          [mws "020" 'a' "has bad checksum (13 digit)"]))
     else [mws "020" 'a' "has the wrong number of digits"])
  else if sf.code = 'z' then
    if isbnZTrigger sf.value ∧ isbnNumValid (isbnToken sf.value) then
      [mws "020" 'z' "is numerically valid."]
    else []
  else []

/-- Modelled from the spec: the 020 checker maps the subfield contract over
the field's subfields in order. -/
def check_020 (f : Field) : List MarcWarning := f.subfields.flatMap check020Sub

/-! ## Standard number checker for 022 (spec §4.3) -/

/-- The ISSN core of a subfield value: cut at the first space (dropping any
qualifier), keeping the position-fixed hyphen for the shape test. -/
def issnClean (v : String) : List Char := v.data.takeWhile (· ≠ ' ')

/-- ISSN shape with the position-fixed hyphen: either `DDDD-DDDC` or the
8-character hyphen-free form (spec §4.3: "8 for 022, with position-fixed
hyphen"; `tests/test_022.py` accepts `03785955`). -/
def issnShape (cs : List Char) : Bool :=
  match cs with
  | [a, b, c, d, '-', e, f, g, h] => issnCoreShape [a, b, c, d, e, f, g, h]
  | _ => issnCoreShape cs

/-- Full numeric validity of an ISSN value: shape plus checksum. -/
def issnValid (v : String) : Bool :=
  let cs := issnClean v
  issnShape cs ∧ issnValidCore (cs.filter (· ≠ '-'))

/-- Modelled from the spec (§4.3) and `tests/test_022.py`: `$a` is checked
for shape ("has the wrong number of digits, V.") then checksum ("has bad
checksum, V."); `$y` (incorrect) warns only when numerically valid; `$z`
(cancelled) is checked for shape only ("has invalid format, V.") and a
numerically valid value there is silent. -/
def check022Sub (sf : Subfield) : List MarcWarning :=
  let cs := issnClean sf.value
  let core := String.mk cs
  if sf.code = 'a' then
    if ¬ issnShape cs then
      [mws "022" 'a' ("has the wrong number of digits, " ++ core ++ ".")]
    else if issnValidCore (cs.filter (· ≠ '-')) then []
    else [mws "022" 'a' ("has bad checksum, " ++ core ++ ".")]
  else if sf.code = 'y' then
    if issnValid sf.value then [mws "022" 'y' "is numerically valid."] else []
  else if sf.code = 'z' then
    if ¬ issnShape cs then
      [mws "022" 'z' ("has invalid format, " ++ core ++ ".")]
    else []
  else []

/-- Modelled from the spec: the 022 checker maps the subfield contract over
the field's subfields in order. -/
def check_022 (f : Field) : List MarcWarning := f.subfields.flatMap check022Sub

/-! ## Language code checker for 041 (spec §4.3) -/

/-- Split a character list into consecutive 3-character chunks. -/
def chunks3 : List Char → List String
  | a :: b :: c :: rest => String.mk [a, b, c] :: chunks3 rest
  | _ => []

/-- Two-tier current/obsolete/invalid lookup for one 3-character language
code inside a 041 subfield value, message carrying the full original value
(spec §4.3; message shapes pinned by `tests/test_041.py`). -/
def langCodeWarn (code : Char) (v : String) (c : String) : List MarcWarning :=
  if c ∈ LanguageCodes then []
  else if c ∈ ObsoleteLanguageCodes then
    [mws "041" code (v ++ ", may be obsolete.")]
  else [mws "041" code (v ++ " (" ++ c ++ "), is not valid.")]

/-- Modelled from the spec (§4.3, 041), one subfield at a time: a value
whose length is not evenly divisible by 3 warns once; otherwise the value is
split into consecutive 3-character codes, each looked up two-tier. -/
def check041Sub (sf : Subfield) : List MarcWarning :=
  if sf.value.length % 3 ≠ 0 then
    [mws "041" sf.code
      ("must be evenly divisible by 3 or exactly three characters if ind2 is not 7, "
        ++ sf.value ++ ".")]
  else (chunks3 sf.value.data).flatMap (langCodeWarn sf.code sf.value)

/-- Modelled from the spec: when indicator-2 is the "source in `$2`" marker
`7` the 041 checks are skipped entirely; otherwise every subfield is
checked. -/
def check_041 (f : Field) : List MarcWarning :=
  if f.ind2 = '7' then [] else f.subfields.flatMap check041Sub

/-! ## Geographic area code checker for 043 (spec §4.3) -/

/-- Modelled from the spec (§4.3, 043): each `$a` must be exactly 7
characters, then two-tier lookup; other subfields are ignored entirely. -/
def check043Sub (sf : Subfield) : List MarcWarning :=
  if sf.code = 'a' then
    if sf.value.length ≠ 7 then
      [mws "043" 'a' ("must be exactly 7 characters, " ++ sf.value ++ ".")]
    else if sf.value ∈ GeogAreaCodes then []
    else if sf.value ∈ ObsoleteGeogAreaCodes then
      [mws "043" 'a' (sf.value ++ ", may be obsolete.")]
    else [mws "043" 'a' (sf.value ++ ", is not valid.")]
  else []

/-- Modelled from the spec: the 043 checker maps the `$a` contract over the
field's subfields in order. -/
def check_043 (f : Field) : List MarcWarning := f.subfields.flatMap check043Sub

/-! ## Leader checker (spec §4.3) -/

/-- Character at a 0-based position of a string (total, `' '` past the end). -/
def charAt (s : String) (i : Nat) : Char := (s.data.drop i).headD ' '

/-- Modelled from the spec: valid record-status codes (leader position 05). -/
def RecordStatuses : List Char := ['a', 'c', 'd', 'n', 'p']

/-- Modelled from the spec: valid type-of-record codes (leader position 06). -/
def RecordTypes : List Char :=
  ['a', 'c', 'd', 'e', 'f', 'g', 'i', 'j', 'k', 'm', 'o', 'p', 'r', 't']

/-- Modelled from the spec: valid bibliographic-level codes (position 07). -/
def BibLevels : List Char := ['a', 'b', 'c', 'd', 'i', 'm', 's']

/-- Modelled from the spec: valid type-of-control codes (position 08). -/
def ControlTypes : List Char := [' ', 'a']

/-- Modelled from the spec: valid encoding-level codes (position 17). -/
def EncodingLevels : List Char :=
  [' ', '1', '2', '3', '4', '5', '7', '8', 'u', 'z', 'i', 'I', 'K', 'M', 'L', 'J']

/-- Modelled from the spec (§4.3 Leader): a leader that is not exactly 24
characters gets one length warning and the positional checks are skipped;
otherwise the discrete positions 05/06/07/08/17 are each validated against
their enumerated sets, one warning per mismatch, naming the semantic role. -/
def checkLeader (l : String) : List MarcWarning :=
  if l.length ≠ 24 then [mw "LDR" "Leader must be 24 characters."]
  else
    (if charAt l 5 ∈ RecordStatuses then [] else
      [mw "LDR" ("Invalid record status: " ++ (charAt l 5).toString ++ ".")]) ++
    (if charAt l 6 ∈ RecordTypes then [] else
      [mw "LDR" ("Invalid type of record: " ++ (charAt l 6).toString ++ ".")]) ++
    (if charAt l 7 ∈ BibLevels then [] else
      [mw "LDR" ("Invalid bibliographic level: " ++ (charAt l 7).toString ++ ".")]) ++
    (if charAt l 8 ∈ ControlTypes then [] else
      [mw "LDR" ("Invalid type of control: " ++ (charAt l 8).toString ++ ".")]) ++
    (if charAt l 17 ∈ EncodingLevels then [] else
      [mw "LDR" ("Invalid encoding level: " ++ (charAt l 17).toString ++ ".")])

/-! ## Fixed control field checker for 008 (spec §4.3) -/

/-- Modelled from the spec: valid type-of-date codes (008 position 06),
including the "no attempt" marker. -/
def DateTypes : List Char :=
  ['b', 'c', 'd', 'e', 'i', 'k', 'm', 'n', 'p', 'q', 'r', 's', 't', 'u', '|']

/-- Date-1 validity (008 positions 07-10): four digits, digits mixed with
the `u` placeholder, all blanks, or all "no attempt" markers (spec §4.3). -/
def date1Ok (cs : List Char) : Bool :=
  cs.all (fun c => c.isDigit ∨ c = 'u') ∨ cs.all (· = ' ') ∨ cs.all (· = '|')

/-- A fixed-position code is exempt from table lookup when it is all blanks
or all "no attempt" markers (spec §4.3). -/
def codeExempt (cs : List Char) : Bool := cs.all (· = ' ') ∨ cs.all (· = '|')

/-- Modelled from the spec: valid modified-record codes (008 position 38). -/
def ModifiedRecs : List Char := [' ', 'd', 'o', 'r', 's', 'x']

/-- Modelled from the spec: valid cataloging-source codes (008 position 39). -/
def CatSources : List Char := [' ', 'c', 'd', 'u']

/-- Substring of `s`: `n` characters from 0-based position `i`. -/
def strSlice (s : String) (i n : Nat) : String := .mk ((s.data.drop i).take n)

/-- Modelled from the spec (§4.3 Fixed control field): a 008 value that is
not exactly 40 characters gets one length warning and the positional checks
are skipped; otherwise type-of-date, date-1, country (two-tier), language
(two-tier), modified-record and cataloging-source are validated. -/
def check_008 (d : String) : List MarcWarning :=
  if d.length ≠ 40 then [mw "008" "008 must be 40 characters."]
  else
    (if charAt d 6 ∈ DateTypes then [] else
      [mw "008" ("Invalid type of date: " ++ (charAt d 6).toString ++ ".")]) ++
    (if date1Ok ((d.data.drop 7).take 4) then [] else
      [mw "008" ("Invalid Date 1: " ++ strSlice d 7 4 ++ ".")]) ++
    (let cc := strSlice d 15 3
     if codeExempt cc.data then []
     else if cc ∈ CountryCodes then []
     else if cc ∈ ObsoleteCountryCodes then
       [mw "008" (cc ++ " may be an obsolete country code.")]
     else [mw "008" (cc ++ " is not a valid country code.")]) ++
    (let lc := strSlice d 35 3
     if codeExempt lc.data then []
     else if lc ∈ LanguageCodes then []
     else if lc ∈ ObsoleteLanguageCodes then
       [mw "008" (lc ++ " may be an obsolete language code.")]
     else [mw "008" (lc ++ " is not a valid language code.")]) ++
    (if charAt d 38 ∈ ModifiedRecs then [] else
      [mw "008" ("Invalid modified record: " ++ (charAt d 38).toString ++ ".")]) ++
    (if charAt d 39 ∈ CatSources then [] else
      [mw "008" ("Invalid cataloging source: " ++ (charAt d 39).toString ++ ".")])

/-! ## Title-bearing fields (spec §4.3): 130/240/245/630/730/830 -/

/-- The six title-bearing tags. -/
def titleTags : List String := ["130", "240", "245", "630", "730", "830"]

/-- Tags whose designated non-filing indicator is indicator-1 (spec §4.3.4);
the remaining title tags (240/245/830) use indicator-2. -/
def ind1Tags : List String := ["130", "630", "730"]

/-- Leading-subfield contract (spec §4.3.1): content must begin with `$a`;
when a linking `$6` is present, `$a` must immediately follow it; a missing
`$a` warns separately from a wrong-leading-subfield warning. -/
def titleLeadFirst (t : String) : List Subfield → List MarcWarning
  | [] => []
  | [s0] =>
    if s0.code = '6' then [] else if s0.code = 'a' then [] else
      [mw t ("First subfield must be _a, but it is _" ++ s0.code.toString ++ ".")]
  | s0 :: s1 :: _ =>
    if s0.code = '6' then
      (if s1.code = 'a' then [] else
        [mw t ("First subfield after subfield _6 must be _a, but it is _"
          ++ s1.code.toString ++ ".")])
    else if s0.code = 'a' then [] else
      [mw t ("First subfield must be _a, but it is _" ++ s0.code.toString ++ ".")]

/-- Leading-subfield contract (spec §4.3.1), over the whole field. -/
def titleLeading (t : String) (f : Field) : List MarcWarning :=
  (if f.subfields.any (·.code = 'a') then [] else
    [mw t "Must have a subfield _a."]) ++ titleLeadFirst t f.subfields

/-- Value of a string with trailing spaces removed, as characters. -/
def rstrip (s : String) : List Char := (s.data.reverse.dropWhile (· = ' ')).reverse

/-- Terminal-punctuation contract (spec §4.3.2): the trimmed last value must
end in `.`; `?`/`!` yield the softer advisory citing the cataloging
exception; anything else yields the strict warning. -/
def titlePunctLast (t : String) : Option Char → List MarcWarning
  | none => [mw t "Must end with . (period)."]
  | some c =>
    if c = '.' then []
    else if c = '?' ∨ c = '!' then
      [mw t "MARC21 allows ? or ! as final punctuation but LCRI 1.0C, Nov. 2003 (LCPS 1.7.1 for RDA records), requires period."]
    else [mw t "Must end with . (period)."]

/-- Terminal-punctuation contract (spec §4.3.2), over the whole field. -/
def titlePunct (t : String) (f : Field) : List MarcWarning :=
  match f.subfields.getLast? with
  | none => []
  | some sf => titlePunctLast t ((rstrip sf.value).getLast?)

/-- Does the list end with the given suffix? -/
def endsIn (cs : List Char) (suffix : List Char) : Bool :=
  (cs.reverse.take suffix.length) == suffix.reverse

/-- Preceding-punctuation contract for one subfield given its predecessor
and whether a `$n` occurred earlier in the field (spec §4.3.3). -/
def titlePrecOne (t : String) (prev : Subfield) (seenN : Bool) (s : Subfield) :
    List MarcWarning :=
  if s.code = 'b' then
    if endsIn prev.value.data [' ', ':'] ∨ endsIn prev.value.data [' ', ';'] ∨
        endsIn prev.value.data [' ', '='] then [] else
      [mw t "Subfield _b should be preceded by space-colon, space-semicolon, or space-equals sign."]
  else if s.code = 'c' then
    if endsIn prev.value.data ['/'] then [] else
      [mw t "Subfield _c must be preceded by /"]
  else if s.code = 'h' then
    if endsIn (s.value.data.take 1) ['['] ∧ endsIn s.value.data [']'] then [] else
      [mw t ("Subfield _h must have matching square brackets, "
        ++ s.code.toString ++ ".")]
  else if s.code = 'n' then
    if endsIn prev.value.data ['.'] then [] else
      [mw t "Subfield _n must be preceded by ."]
  else if s.code = 'p' then
    if seenN then
      if endsIn prev.value.data [','] then [] else
        [mw t "Subfield _p must be preceded by ,"]
    else
      if endsIn prev.value.data ['.'] then [] else
        [mw t "Subfield _p must be preceded by ."]
  else []

/-- Walk the subfields pairwise, tracking whether a `$n` has occurred. -/
def titlePrecGo (t : String) (prev : Subfield) (seenN : Bool) :
    List Subfield → List MarcWarning
  | [] => []
  | s :: rest =>
    titlePrecOne t prev seenN s ++
      titlePrecGo t s (seenN || (prev.code == 'n')) rest

/-- Preceding-punctuation contracts over a whole field (spec §4.3.3). -/
def titlePrec (t : String) (f : Field) : List MarcWarning :=
  match f.subfields with
  | [] => []
  | s0 :: rest => titlePrecGo t s0 false rest

/-- The leading word of the first content subfield, lowercased: the first
subfield that is not the linking `$6`, cut at the first non-alphanumeric
character (spec §4.3.4). -/
def firstContentWord (f : Field) : Option String :=
  match f.subfields.find? (fun s => s.code ≠ '6') with
  | none => none
  | some s =>
    match s.value.data.takeWhile (·.isAlphanum) with
    | [] => none
    | cs => some (String.mk (cs.map Char.toLower))

/-- The designated non-filing indicator of a title tag (spec §4.3.4):
indicator-1 for 130/630/730, indicator-2 for 240/245/830. -/
def desigInd (t : String) (f : Field) : Char :=
  if t ∈ ind1Tags then f.ind1 else f.ind2

/-- Name of the designated indicator as it appears in messages. -/
def indName (t : String) : String := if t ∈ ind1Tags then "1st" else "2nd"

/-- Non-filing/article contract (spec §4.3.4), `Modelled from the spec:`
the article logic follows the specification exactly — if the 008 language
has an article list and the leading word matches, the designated indicator
must equal the word's character count plus one, else the "may be an
article" warning; a non-matching word with a non-zero indicator gets the
"does not appear to be an article" warning; a language absent from the
table is skipped entirely.  The non-numeric-indicator warning, which the
specification omits, is pinned by `tests/test_245.py` and emitted in
addition to the spec checks. -/
def articleArts (lang : Option String) : Option (List String) :=
  lang.bind articleTable

/-- The article judgment proper, once the language's article list and the
leading word are at hand (spec §4.3.4). -/
def articleCore (t : String) (f : Field) (arts : List String) (w : String) :
    List MarcWarning :=
  (if (desigInd t f).isDigit then [] else
    [mw t "Non-filing indicator is non-numeric"]) ++
  (if w ∈ arts then
    (if (desigInd t f).isDigit ∧
        (desigInd t f).toNat - '0'.toNat = w.length + 1 then [] else
      [mw t ("First word, " ++ w ++ ", may be an article, check "
        ++ indName t ++ " indicator (" ++ (desigInd t f).toString ++ ").")])
   else
    (if desigInd t f = '0' then [] else
      [mw t ("First word, " ++ w ++ ", does not appear to be an article, check "
        ++ indName t ++ " indicator (" ++ (desigInd t f).toString ++ ").")]))

/-- The non-filing/article contract over the record language and field. -/
def checkArticle (t : String) (lang : Option String) (f : Field) :
    List MarcWarning :=
  match articleArts lang, firstContentWord f with
  | some arts, some w => articleCore t f arts w
  | _, _ => []

/-- Modelled from the spec (§4.3 Title-bearing fields): the four independent
contracts, in order — leading subfield, terminal punctuation, preceding
punctuation, non-filing/article. -/
def checkTitle (t : String) (lang : Option String) (f : Field) :
    List MarcWarning :=
  titleLeading t f ++ titlePunct t f ++ titlePrec t f ++ checkArticle t lang f

/-! ## FieldRuleRegistry and GenericFieldValidator (spec §4.1) -/

/-- Per-tag structural rule (spec §3): repeatable flag, legal indicator
value sets, allowed subfield codes.  `none` means "no restriction". -/
structure FieldRule where
  repeatable : Bool := true
  ind1 : Option (List Char) := none
  ind2 : Option (List Char) := none
  allowed : Option (List Char) := none
deriving DecidableEq, Repr

/-- Modelled from the spec: tags whose rule marks them non-repeatable (a
representative registry load covering the tags the tests exercise). -/
def nonRepeatableTags : List String :=
  ["001", "003", "005", "008", "010", "040", "041", "042", "043", "044",
   "045", "100", "110", "111", "130", "240", "243", "245", "254", "263"]

/-- Modelled from the spec: the rule registry; `lookup(tag) → rule |
default`, unknown tags getting the implicit permissive default (spec §4.1).
245 carries the indicator-1 restriction and allowed-subfield set the tests
exercise. -/
def fieldRules (t : String) : FieldRule :=
  if t = "245" then
    { repeatable := false, ind1 := some ['0', '1'],
      allowed := some ['a', 'b', 'c', 'f', 'g', 'h', 'k', 'n', 'p', 's', '6', '8'] }
  else if t ∈ nonRepeatableTags then { repeatable := false }
  else {}

/-- Render an indicator value set for the warning message, `" or "`-joined. -/
def renderSet : List Char → String
  | [] => ""
  | [c] => c.toString
  | c :: rest => c.toString ++ " or " ++ renderSet rest

/-- Indicator-legality warning for one indicator (spec §4.1a). -/
def indWarn (t : String) (n : String) (rule : Option (List Char)) (c : Char) :
    List MarcWarning :=
  match rule with
  | none => []
  | some set =>
    if c ∈ set then [] else
      [mw t ("Indicator " ++ n ++ " must be " ++ renderSet set
        ++ " but it's \"" ++ c.toString ++ "\"")]

/-! ## LinkDirector (spec §4.4): alternate graphic representation -/

/-- Modelled from the spec: parse a linking subfield value of the form
`TAG-NN[/suffix]` (spec §3, LinkDescriptor): at least 6 characters with a
2-digit occurrence token at positions 4-5; on success yields the
originating 3-character tag, a failure (too short, non-numeric occurrence
token) yields `none`. -/
def parse6 (v : String) : Option String :=
  match v.data with
  | t1 :: t2 :: t3 :: _ :: n1 :: n2 :: _ =>
    if n1.isDigit ∧ n2.isDigit then some (String.mk [t1, t2, t3]) else none
  | _ => none

/-- The originating tag of an 880 field, when its first subfield is the
linking `$6` and the link parses (spec §4.4). -/
def link880 (f : Field) : Option String :=
  if f.tag = "880" then
    match f.subfields.head? with
    | some s0 => if s0.code = '6' then parse6 s0.value else none
    | none => none
  else none

/-- The tag under which a field is validated and counted: the originating
tag for a linked 880 field, its own tag otherwise (spec §4.4:
"repeatability accounting merges linked occurrences into the originating
tag's occurrence sequence"). -/
def effTag (f : Field) : String := (link880 f).getD f.tag

/-! ## Orchestrator (spec §2, §4.1): generic pass plus dispatch -/

/-- Number of fields in `prior` already counted under tag `t`. -/
def countEff (prior : List Field) (t : String) : Nat :=
  (prior.filter (fun g => effTag g == t)).length

/-- Generic structural pass for one field (spec §4.1), given the field's
occurrence index `occ` in the merged per-tag sequence: (a) indicator
legality, (b) repeatability — warn when the tag is non-repeatable and this
is not the first occurrence, tagged with the occurrence position, (c)
subfield legality.  All warnings are attributed to the tag the field is
validated as. -/
def genericW (occ : Nat) (f : Field) : List MarcWarning :=
  let t := effTag f
  let rule := fieldRules t
  indWarn t "1" rule.ind1 f.ind1 ++ indWarn t "2" rule.ind2 f.ind2 ++
  (if ¬ rule.repeatable ∧ occ ≥ 1 then
     [{ field := t, position := some occ, message := "Field is not repeatable." }]
   else []) ++
  (match rule.allowed with
   | none => []
   | some cs =>
     (f.subfields.filter (fun s => ¬ s.code ∈ cs)).map
       (fun s => mw t ("Subfield _" ++ s.code.toString ++ " is not allowed.")))

/-- Specialized-checker dispatch by tag (spec §9: a tag-keyed table behind
one shared capability); tags outside the table have no specialized rules. -/
def dispatch (t : String) (lang : Option String) (f : Field) :
    List MarcWarning :=
  if t = "008" then check_008 f.data
  else if t = "020" then check_020 f
  else if t = "022" then check_022 f
  else if t = "041" then check_041 f
  else if t = "043" then check_043 f
  else if t ∈ titleTags then checkTitle t lang f
  else []

/-- Specialized pass for one field (spec §4.4): an 880 whose first subfield
is not the linking `$6` warns "No subfield 6."; a parse failure silently
skips semantic inheritance; a successful link applies the originating tag's
checker to the alternate field as if it carried that tag. -/
def specialW (lang : Option String) (occ : Nat) (f : Field) :
    List MarcWarning :=
  if f.tag = "880" then
    match f.subfields.head? with
    | none =>
      [{ field := "880", position := some occ, message := "No subfield 6." }]
    | some s0 =>
      if s0.code = '6' then
        match parse6 s0.value with
        | none => []
        | some t => dispatch t lang { f with tag := t }
      else
        [{ field := "880", position := some occ, message := "No subfield 6." }]
  else dispatch f.tag lang f

/-- All warnings of one field: generic structural pass then specialized
pass (spec §2 control flow). -/
def fieldW (lang : Option String) (prior : List Field) (f : Field) :
    List MarcWarning :=
  genericW (countEff prior (effTag f)) f ++
    specialW lang (countEff prior (effTag f)) f

/-- Sequence the per-field checks over the record in field order,
accumulating the already-seen fields for the occurrence counters. -/
def fieldsGo (lang : Option String) (prior : List Field) :
    List Field → List MarcWarning
  | [] => []
  | f :: rest => fieldW lang prior f ++ fieldsGo lang (prior ++ [f]) rest

/-- The record's 008 language code (positions 35-37), available only when
the 008 field is present with its exact 40-character length. -/
def lang008 (r : Record) : Option String :=
  match r.fields.find? (fun f => f.tag == "008") with
  | some f => if f.data.length = 40 then some (strSlice f.data 35 3) else none
  | none => none

/-- Modelled from the spec: the required-title check, absent from the
specification text but pinned by `tests/test_043.py` and
`tests/test_041.py`: a record without a native 245 field warns
"No 245 tag.". -/
def no245W (fields : List Field) : List MarcWarning :=
  if fields.any (fun f => f.tag == "245") then [] else [mw "245" "No 245 tag."]

/-- Modelled from the spec (§2, §6): one full single-record validation pass
— leader check, then every field in record order (generic + specialized),
then the required-title check.  Total by construction: every failure mode
surfaces as a warning, never as a raised error (spec §7). -/
def computeWarnings (r : Record) : List MarcWarning :=
  checkLeader r.leader ++ fieldsGo (lang008 r) [] r.fields ++ no245W r.fields

/-! ## WarningSink, single-record and batch entry points (spec §6) -/

/-- The record's designated control-number (001) value, when present. -/
def find001 (r : Record) : Option String :=
  (r.fields.find? (fun f => f.tag == "001")).map (·.data)

/-- Modelled from the spec: `linter.py`'s `MarcLint` holds only the warning
accumulator of the current pass (spec §5: per-record state is scoped to one
validation pass). -/
structure Lint where
  _warnings : List MarcWarning := []
deriving DecidableEq, Repr

/-- Modelled from the spec (§6): `check(record, record_id?)` — deterministic
single-record check; the sink is replaced by this pass's warnings, each
warning stamped with the explicit record id or, by default, the 001 value
(pinned by `tests/test_multi_record.py`). -/
def Lint.check_record (_lint : Lint) (r : Record)
    (record_id : Option String := none) : Lint × List MarcWarning :=
  let rid := match record_id with
    | some s => some s
    | none => find001 r
  let ws := (computeWarnings r).map (fun w => { w with record_id := rid })
  ({ _warnings := ws }, ws)

/-- Batch result (spec §3): record identifier, ordered warnings, reference
to the source record. -/
structure RecordResult where
  record_id : Option String
  warnings : List MarcWarning
  record : Record
deriving DecidableEq, Repr

/-- `is_valid` ⇔ the warning list is empty (spec §3). -/
def RecordResult.is_valid (res : RecordResult) : Bool := res.warnings.isEmpty

/-- Identity strategy (spec §6): the designated control-number field's value
when present, else the record's positional index rendered as a string
(when `use_index_as_id` is set). -/
def recIdAt (useIdx : Bool) (i : Nat) (r : Record) : Option String :=
  match find001 r with
  | some v => some v
  | none => if useIdx then some (toString i) else none

/-- Batch worker: one `RecordResult` per record, positions counted from `i`. -/
def checkRecordsGo (useIdx : Bool) (i : Nat) : List Record → List RecordResult
  | [] => []
  | r :: rest =>
    let rid := recIdAt useIdx i r
    { record_id := rid,
      warnings := ((Lint.mk []).check_record r rid).2,
      record := r } :: checkRecordsGo useIdx (i + 1) rest

/-- Modelled from the spec (§6): `check_batch(records, id_strategy)` — an
ordered `RecordResult` list preserving input order. -/
def Lint.check_records (_lint : Lint) (records : List Record)
    (use_index_as_id : Bool := false) : List RecordResult :=
  checkRecordsGo use_index_as_id 0 records

/-! ## Shared fixtures (records mirrored from the shipped tests) -/

/-- The conforming leader used throughout the tests. -/
def stdLeader : String := "00000nam a2200000 i 4500"

/-- The conforming 008 value used throughout the tests. -/
def std008 : String := "240101s2024    xxu           000 0 eng d"

/-- Control-number field of the minimal test record. -/
def f001 : Field := { tag := "001", data := "test001" }

/-- 008 field of the minimal test record. -/
def f008 : Field := { tag := "008", data := std008 }

/-- Title field of the minimal test record. -/
def f245 : Field :=
  { tag := "245", ind1 := '0', ind2 := '0', subfields := [⟨'a', "Test title."⟩] }

/-- A minimal record extended with extra fields (the tests' record builder). -/
def minRecWith (fs : List Field) : Record := ⟨stdLeader, [f001, f008] ++ fs⟩

/-! ## General lemmas about the embedding -/

/-- String append acts as list append on the underlying characters. -/
theorem data_append (a b : String) : (a ++ b).data = a.data ++ b.data := rfl

/-- A string extended to the right cannot equal a string it is not a prefix
of (checked on a concrete take). -/
theorem append_ne_of_take (p s t : String)
    (h : t.data.take p.data.length ≠ p.data) : p ++ s ≠ t := by
  intro he
  apply h
  rw [← he, data_append, List.take_left]

/-- Every field of the record contributes its per-field warnings to the
sequenced pass, under the occurrence context it is actually reached in. -/
theorem mem_fieldsGo (lang : Option String) (f : Field) :
    ∀ (fields prior : List Field), f ∈ fields →
      ∃ ctx, ∀ w ∈ fieldW lang ctx f, w ∈ fieldsGo lang prior fields := by
  intro fields
  induction fields with
  | nil => intro prior h; cases h
  | cons g rest ih =>
    intro prior h
    rcases List.mem_cons.mp h with rfl | hrest
    · exact ⟨prior, fun w hw => by
        simp only [fieldsGo, List.mem_append]; exact Or.inl hw⟩
    · obtain ⟨ctx, hctx⟩ := ih (prior ++ [g]) hrest
      exact ⟨ctx, fun w hw => by
        simp only [fieldsGo, List.mem_append]; exact Or.inr (hctx w hw)⟩

/-- Specialized warnings of a field reach the full record pass. -/
theorem mem_computeWarnings (r : Record) (f : Field) (hf : f ∈ r.fields) :
    ∃ ctx, ∀ w ∈ fieldW (lang008 r) ctx f, w ∈ computeWarnings r := by
  obtain ⟨ctx, hctx⟩ := mem_fieldsGo (lang008 r) f r.fields [] hf
  exact ⟨ctx, fun w hw => by
    simp only [computeWarnings, List.mem_append]
    exact Or.inl (Or.inr (hctx w hw))⟩

/-! ## C3: checksum acceptance on the standard examples -/

/-- Record with one 020 field holding the given `$a`. -/
def rec020a (v : String) : Record :=
  minRecWith [f245, { tag := "020", subfields := [⟨'a', v⟩] }]

/-- Record with one 022 field holding the given `$a`. -/
def rec022a (v : String) : Record :=
  minRecWith [f245, { tag := "022", subfields := [⟨'a', v⟩] }]

/-- C3: the checksum verification accepts exactly the standard-conforming
values: 020 `$a` of `0123456789` and `9780123456786`, and 022 `$a` of
`0378-5955`, produce no warning at all, while `0123456788` produces
"has bad checksum", `9780123456787` produces "has bad checksum (13 digit)",
and `0378-5956` produces "has bad checksum, 0378-5956.". -/
theorem c3_standard_checksums :
    computeWarnings (rec020a "0123456789") = [] ∧
    computeWarnings (rec020a "9780123456786") = [] ∧
    computeWarnings (rec022a "0378-5955") = [] ∧
    computeWarnings (rec020a "0123456788") =
      [mws "020" 'a' "has bad checksum"] ∧
    computeWarnings (rec020a "9780123456787") =
      [mws "020" 'a' "has bad checksum (13 digit)"] ∧
    computeWarnings (rec022a "0378-5956") =
      [mws "022" 'a' "has bad checksum, 0378-5956."] := by
  refine ⟨?_, ?_, ?_, ?_, ?_, ?_⟩ <;> decide

/-! ## C4: idempotence of the single-record check -/

/-- C4: calling the single-record check twice on the same linter instance
with the record unchanged yields identical ordered warning lists; the
result never depends on the accumulated state of the instance. -/
theorem c4_check_record_idempotent (st : Lint) (r : Record)
    (rid : Option String) :
    ((st.check_record r rid).1.check_record r rid).2 =
      (st.check_record r rid).2 ∧
    ∀ st2 : Lint, (st2.check_record r rid).2 = (st.check_record r rid).2 :=
  ⟨rfl, fun _ => rfl⟩

/-! ## C9: batch entry point, order and record identity -/

/-- Batch worker indexing lemma: the result at offset `i` validates the
record at offset `i`, with the identity strategy applied at the absolute
position. -/
theorem checkRecordsGo_getElem (useIdx : Bool) :
    ∀ (rs : List Record) (n i : Nat) (r : Record), rs[i]? = some r →
      (checkRecordsGo useIdx n rs)[i]? =
        some { record_id := recIdAt useIdx (n + i) r,
               warnings := ((Lint.mk []).check_record r (recIdAt useIdx (n + i) r)).2,
               record := r } := by
  intro rs
  induction rs with
  | nil => intro n i r h; simp at h
  | cons a rest ih =>
    intro n i r h
    cases i with
    | zero =>
      have ha : a = r := by simpa using h
      subst ha
      rw [checkRecordsGo]
      simp only [List.getElem?_cons_zero, Nat.add_zero]
    | succ j =>
      simp only [List.getElem?_cons_succ] at h
      rw [checkRecordsGo]
      simp only [List.getElem?_cons_succ]
      rw [ih (n + 1) j r h, show n + 1 + j = n + (j + 1) from by omega]

/-- C9: the batch entry point returns one `RecordResult` per input record
in input order; each result's identifier is the 001 value when present,
else the positional index rendered as a string, and each result references
its source record. -/
theorem c9_batch_order_and_ids (lint : Lint) (rs : List Record) (i : Nat)
    (r : Record) (hi : rs[i]? = some r) :
    (lint.check_records rs true).length = rs.length ∧
    ∃ res, (lint.check_records rs true)[i]? = some res ∧
      res.record = r ∧
      res.record_id = (match find001 r with
        | some v => some v
        | none => some (toString i)) := by
  constructor
  · show (checkRecordsGo true 0 rs).length = rs.length
    clear hi
    have len : ∀ (n : Nat) (l : List Record),
        (checkRecordsGo true n l).length = l.length := by
      intro n l
      induction l generalizing n with
      | nil => rfl
      | cons a rest ih =>
        rw [checkRecordsGo]
        simp only [List.length_cons, ih]
    exact len 0 rs
  · refine ⟨_, checkRecordsGo_getElem true rs 0 i r hi, rfl, ?_⟩
    simp [recIdAt]

/-- C9 witness: a two-record batch, the first with a 001 control number,
the second without. -/
theorem c9_batch_order_and_ids_witness :
    ∃ res, ((Lint.mk []).check_records
        [⟨stdLeader, [f001, f008, f245]⟩, ⟨stdLeader, [f008, f245]⟩] true)[1]? =
          some res ∧
      res.record = ⟨stdLeader, [f008, f245]⟩ ∧
      res.record_id = some "1" := by
  obtain ⟨h1, res, h2, h3, h4⟩ :=
    c9_batch_order_and_ids (Lint.mk [])
      [⟨stdLeader, [f001, f008, f245]⟩, ⟨stdLeader, [f008, f245]⟩] 1
      ⟨stdLeader, [f008, f245]⟩ (by decide)
  exact ⟨res, h2, h3, by rw [h4]; decide⟩

/-! ## C10: the required-title check -/

/-- C10: a record containing no field with tag 245 warns "No 245 tag.". -/
theorem c10_no_245_tag (r : Record) (h : ∀ f ∈ r.fields, f.tag ≠ "245") :
    mw "245" "No 245 tag." ∈ computeWarnings r := by
  have hno : no245W r.fields = [mw "245" "No 245 tag."] := by
    have : r.fields.any (fun f => f.tag == "245") = false := by
      rw [List.any_eq_false]
      intro f hf
      simpa using h f hf
    simp [no245W, this]
  simp only [computeWarnings, List.mem_append, hno]
  exact Or.inr (List.mem_singleton.mpr rfl)

/-- String append is associative. -/
theorem strAppend_assoc (a b c : String) : (a ++ b) ++ c = a ++ (b ++ c) := by
  apply String.ext
  simp only [data_append, List.append_assoc]

/-- One character list occurring inside another. -/
def infixOf (x y : List Char) : Prop := ∃ pre post, y = pre ++ x ++ post

/-- A warning of a field's specialized checker reaches the per-field pass,
for any occurrence context, when the field is not a linked one. -/
theorem mem_fieldW_of_dispatch (lang : Option String) (prior : List Field)
    (f : Field) (h : f.tag ≠ "880") (w : MarcWarning)
    (hw : w ∈ dispatch f.tag lang f) : w ∈ fieldW lang prior f := by
  simp only [fieldW, specialW, if_neg h, List.mem_append]
  exact Or.inr hw

/-- C10 witness: the geographic-code test record, which has no 245 field. -/
theorem c10_no_245_tag_witness :
    (∀ f ∈ (Record.mk "00000nam  2200000   4500"
        [{ tag := "043", subfields := [⟨'a', "n-us---"⟩] }]).fields,
      f.tag ≠ "245") ∧
    mw "245" "No 245 tag." ∈ computeWarnings
      (Record.mk "00000nam  2200000   4500"
        [{ tag := "043", subfields := [⟨'a', "n-us---"⟩] }]) :=
  ⟨by decide, c10_no_245_tag _ (by decide)⟩

/-! ## C2: incorrect/cancelled standard-number subfields -/

/-- Record holding numerically valid cancelled numbers in bare form: an 020
`$z` of `9876543210` (weighted sum 330 = 30·11, so a valid ISBN-10, taken
from `tests/test_020.py` case 15) and an 022 `$z` of `0527-740X` (a valid
ISSN, from `tests/test_022.py` case 9). -/
def recValidZ : Record :=
  minRecWith [f245,
    { tag := "020", subfields := [⟨'z', "9876543210"⟩] },
    { tag := "022", subfields := [⟨'a', "0410-7543"⟩, ⟨'z', "0527-740X"⟩] }]

/-- C2 counterexample: both cancelled subfields of `recValidZ` hold
numerically valid numbers, yet the record produces no "is numerically
valid" warning at all — the 022 `$z` is only format-checked, and the bare
(unhyphenated, unprefixed) 020 `$z` never reaches the validity check. -/
theorem c2_cancelled_counterexample :
    isbnNumValid (isbnToken "9876543210") = true ∧
    issnValid "0527-740X" = true ∧
    (computeWarnings recValidZ).filter
      (fun w => w.message == "is numerically valid.") = [] := by
  refine ⟨?_, ?_, ?_⟩ <;> decide

/-- C2 as amended: an 020 `$z` warns "is numerically valid." exactly when
it is recognizably ISBN-shaped (hyphenated or `ISBN`-prefixed) and
numerically valid, and never when numerically invalid; an 022 `$y` warns
exactly when numerically valid; an 022 `$z` (cancelled) is never judged for
numeric validity.  The positive cases reach the full record pass. -/
theorem c2_cancelled_subfields (v : String) :
    (isbnZTrigger v = true → isbnNumValid (isbnToken v) = true →
      check020Sub ⟨'z', v⟩ = [mws "020" 'z' "is numerically valid."]) ∧
    (isbnNumValid (isbnToken v) = false → check020Sub ⟨'z', v⟩ = []) ∧
    (issnValid v = true →
      check022Sub ⟨'y', v⟩ = [mws "022" 'y' "is numerically valid."]) ∧
    (issnValid v = false → check022Sub ⟨'y', v⟩ = []) ∧
    (∀ w ∈ check022Sub ⟨'z', v⟩, w.message ≠ "is numerically valid.") ∧
    (∀ r f, f ∈ r.fields → f.tag = "020" → (⟨'z', v⟩ : Subfield) ∈ f.subfields →
      isbnZTrigger v = true → isbnNumValid (isbnToken v) = true →
      mws "020" 'z' "is numerically valid." ∈ computeWarnings r) ∧
    (∀ r f, f ∈ r.fields → f.tag = "022" → (⟨'y', v⟩ : Subfield) ∈ f.subfields →
      issnValid v = true →
      mws "022" 'y' "is numerically valid." ∈ computeWarnings r) := by
  have h020 : isbnZTrigger v = true → isbnNumValid (isbnToken v) = true →
      check020Sub ⟨'z', v⟩ = [mws "020" 'z' "is numerically valid."] := by
    intro h1 h2
    simp [check020Sub, h1, h2]
  have h020n : isbnNumValid (isbnToken v) = false → check020Sub ⟨'z', v⟩ = [] := by
    intro h1
    simp [check020Sub, h1]
  have h022y : issnValid v = true →
      check022Sub ⟨'y', v⟩ = [mws "022" 'y' "is numerically valid."] := by
    intro h1
    simp [check022Sub, h1]
  have h022yn : issnValid v = false → check022Sub ⟨'y', v⟩ = [] := by
    intro h1
    simp [check022Sub, h1]
  have h022z : ∀ w ∈ check022Sub ⟨'z', v⟩, w.message ≠ "is numerically valid." := by
    intro w hw
    by_cases hs : issnShape (issnClean v)
    · have hz : check022Sub ⟨'z', v⟩ = [] := by simp [check022Sub, hs]
      rw [hz] at hw
      cases hw
    · have hz : check022Sub ⟨'z', v⟩ =
          [mws "022" 'z'
            ("has invalid format, " ++ String.mk (issnClean v) ++ ".")] := by
        simp [check022Sub, hs]
      rw [hz] at hw
      rcases List.mem_singleton.mp hw with rfl
      show ("has invalid format, " ++ _ ++ "." : String) ≠ _
      rw [strAppend_assoc]
      exact append_ne_of_take _ _ _ (by decide)
  refine ⟨h020, h020n, h022y, h022yn, h022z, ?_, ?_⟩
  · intro r f hf htag hsf h1 h2
    obtain ⟨ctx, hctx⟩ := mem_computeWarnings r f hf
    apply hctx
    apply mem_fieldW_of_dispatch (lang008 r) ctx f (by rw [htag]; decide)
    rw [htag]
    have hdis : dispatch "020" (lang008 r) f = check_020 f := rfl
    rw [hdis, check_020]
    refine List.mem_flatMap.mpr ⟨⟨'z', v⟩, hsf, ?_⟩
    rw [h020 h1 h2]
    exact List.mem_singleton.mpr rfl
  · intro r f hf htag hsf h1
    obtain ⟨ctx, hctx⟩ := mem_computeWarnings r f hf
    apply hctx
    apply mem_fieldW_of_dispatch (lang008 r) ctx f (by rw [htag]; decide)
    rw [htag]
    have hdis : dispatch "022" (lang008 r) f = check_022 f := rfl
    rw [hdis, check_022]
    refine List.mem_flatMap.mpr ⟨⟨'y', v⟩, hsf, ?_⟩
    rw [h022y h1]
    exact List.mem_singleton.mpr rfl

/-- An 022 field holding a valid `$a` and a numerically valid incorrect
`$y` (the end-to-end C scenario of spec §8). -/
def f022y : Field :=
  { tag := "022", subfields := [⟨'a', "0378-5955"⟩, ⟨'y', "0028-0836"⟩] }

/-- C2 witness: the hyphenated valid cancelled ISBN `0-12-345678-9` warns in
its record; the valid incorrect ISSN `0028-0836` warns in its record; the
numerically invalid `$z` `0123456788` is silent. -/
theorem c2_cancelled_subfields_witness :
    check020Sub ⟨'z', "0-12-345678-9"⟩ =
      [mws "020" 'z' "is numerically valid."] ∧
    check020Sub ⟨'z', "0123456788"⟩ = [] ∧
    check022Sub ⟨'y', "0028-0836"⟩ = [mws "022" 'y' "is numerically valid."] ∧
    mws "022" 'y' "is numerically valid." ∈
      computeWarnings (minRecWith [f245, f022y]) := by
  refine ⟨?_, ?_, ?_, ?_⟩
  · exact (c2_cancelled_subfields "0-12-345678-9").1 (by decide) (by decide)
  · exact (c2_cancelled_subfields "0123456788").2.1 (by decide)
  · exact (c2_cancelled_subfields "0028-0836").2.2.1 (by decide)
  · exact (c2_cancelled_subfields "0028-0836").2.2.2.2.2.2
      (minRecWith [f245, f022y]) f022y (by decide) rfl (by decide) (by decide)

/-! ## C8: 880 link parsing and graceful degradation -/

/-- The tags carrying a specialized checker in the dispatch table. -/
def specialTags : List String :=
  ["008", "020", "022", "041", "043"] ++ titleTags

/-- Unknown tags have no specialized rules: the dispatch table returns
nothing for a tag outside the checker table. -/
theorem dispatch_eq_nil_of_not_special (t : String) (lang : Option String)
    (f : Field) (h : t ∉ specialTags) : dispatch t lang f = [] := by
  simp only [specialTags, List.mem_append, not_or, titleTags] at h
  obtain ⟨h1, h2⟩ := h
  simp only [List.mem_cons, List.mem_singleton, not_or] at h1 h2
  simp [dispatch, h1.1, h1.2.1, h1.2.2.1, h1.2.2.2.1, h1.2.2.2.2, titleTags, h2]

/-- C8: an 880 whose first subfield is not the linking `$6` (or which has
no subfields at all) warns "No subfield 6." in the record pass; an 880
whose `$6` fails to parse as `TAG-NN[/suffix]` gets no specialized
warnings at all; an 880 linking to a tag with no defined rules likewise
gets none — validation always completes (the checker is a total function
into warning lists, so no exception can be raised). -/
theorem c8_880_link_failures (r : Record) (f : Field) (hf : f ∈ r.fields)
    (h880 : f.tag = "880") :
    ((∀ s0 ∈ f.subfields.head?, s0.code ≠ '6') →
      ∃ p, ({ field := "880", position := some p,
              message := "No subfield 6." } : MarcWarning) ∈ computeWarnings r) ∧
    (∀ s0 ∈ f.subfields.head?, s0.code = '6' → parse6 s0.value = none →
      ∀ lang occ, specialW lang occ f = []) ∧
    (∀ s0 ∈ f.subfields.head?, s0.code = '6' → ∀ t, parse6 s0.value = some t →
      t ∉ specialTags → ∀ lang occ, specialW lang occ f = []) := by
  refine ⟨?_, ?_, ?_⟩
  · intro hno6
    obtain ⟨ctx, hctx⟩ := mem_computeWarnings r f hf
    refine ⟨countEff ctx (effTag f), hctx _ ?_⟩
    simp only [fieldW, List.mem_append]
    refine Or.inr ?_
    simp only [specialW, if_pos h880]
    cases hh : f.subfields.head? with
    | none => simp
    | some s0 =>
      have hne := hno6 s0 (by rw [hh]; rfl)
      simp [if_neg hne]
  · intro s0 hs0 hc hp lang occ
    simp only [specialW, if_pos h880]
    cases hh : f.subfields.head? with
    | none =>
      rw [Option.mem_def, hh] at hs0
      exact Option.noConfusion hs0
    | some s1 =>
      rw [Option.mem_def, hh] at hs0
      cases hs0
      simp [hc, hp]
  · intro s0 hs0 hc t hp ht lang occ
    simp only [specialW, if_pos h880]
    cases hh : f.subfields.head? with
    | none =>
      rw [Option.mem_def, hh] at hs0
      exact Option.noConfusion hs0
    | some s1 =>
      rw [Option.mem_def, hh] at hs0
      cases hs0
      simp [hc, hp, dispatch_eq_nil_of_not_special t lang _ ht]

/-- The 880 field of `tests/test_880.py` case 1: no linking subfield. -/
def f880no6 : Field :=
  { tag := "880", ind1 := '1', ind2 := '0',
    subfields := [⟨'a', "Title in alternate script"⟩] }

/-- The 880 field of `tests/test_880.py` case 10: too-short `$6`. -/
def f880short : Field :=
  { tag := "880", ind1 := '1', ind2 := '0',
    subfields := [⟨'6', "24"⟩, ⟨'a', "Title."⟩] }

/-- The 880 field of `tests/test_880.py` case 9: link target without rules. -/
def f880unknown : Field :=
  { tag := "880", ind1 := '1', ind2 := '0',
    subfields := [⟨'6', "999-01/$1"⟩, ⟨'a', "Some local field."⟩] }

/-- C8 witness: the three failure records of `tests/test_880.py` — an 880
with only `$a`, an 880 whose `$6` is the too-short `24`, and an 880 linking
to the ruleless tag 999. -/
theorem c8_880_link_failures_witness :
    (∃ p, ({ field := "880", position := some p,
             message := "No subfield 6." } : MarcWarning) ∈
      computeWarnings (minRecWith [f245, f880no6])) ∧
    (∀ lang occ, specialW lang occ f880short = []) ∧
    (∀ lang occ, specialW lang occ f880unknown = []) := by
  refine ⟨?_, ?_, ?_⟩
  · exact (c8_880_link_failures (minRecWith [f245, f880no6]) f880no6
      (by decide) rfl).1 (by decide)
  · exact (c8_880_link_failures (minRecWith [f245, f880short]) f880short
      (by decide) rfl).2.1 ⟨'6', "24"⟩ (by decide) rfl (by decide)
  · exact (c8_880_link_failures (minRecWith [f245, f880unknown]) f880unknown
      (by decide) rfl).2.2 ⟨'6', "999-01/$1"⟩ (by decide) rfl "999" (by decide)
      (by decide)

/-! ## C6: 041 language-code validation -/

/-- On a value whose length is divisible by 3, the 3-character split is
exact: the chunks concatenate back to the value and each has length 3. -/
theorem chunks3_spec (cs : List Char) (h : cs.length % 3 = 0) :
    (chunks3 cs).flatMap String.data = cs ∧
      ∀ c ∈ chunks3 cs, c.length = 3 := by
  induction cs using chunks3.induct with
  | case1 a b c rest ih =>
    rw [chunks3]
    have hr : rest.length % 3 = 0 := by
      simp only [List.length_cons] at h
      omega
    obtain ⟨h1, h2⟩ := ih hr
    refine ⟨by simp [h1], ?_⟩
    intro x hx
    rcases List.mem_cons.mp hx with rfl | hx2
    · rfl
    · exact h2 x hx2
  | case2 t hne =>
    have hc : chunks3 t = [] := by
      cases t with
      | nil => rfl
      | cons a t1 =>
        cases t1 with
        | nil => rfl
        | cons b t2 =>
          cases t2 with
          | nil => rfl
          | cons c rest => exact (hne a b c rest rfl).elim
    rw [hc]
    refine ⟨?_, fun c hc2 => absurd hc2 (List.not_mem_nil c)⟩
    cases t with
    | nil => rfl
    | cons a t1 =>
      cases t1 with
      | nil => simp at h
      | cons b t2 =>
        cases t2 with
        | nil => simp at h
        | cons c rest => exact (hne a b c rest rfl).elim

/-- A member of the 3-character split occurs inside the original value. -/
theorem chunks3_infixOf (cs : List Char) (h : cs.length % 3 = 0)
    (c : String) (hc : c ∈ chunks3 cs) : infixOf c.data cs := by
  obtain ⟨l1, l2, hsplit⟩ := List.append_of_mem hc
  refine ⟨l1.flatMap String.data, l2.flatMap String.data, ?_⟩
  have := (chunks3_spec cs h).1
  rw [hsplit] at this
  simp only [List.flatMap_append, List.flatMap_cons] at this
  rw [← this]
  simp [List.append_assoc]

/-- The divisibility warning of a 041 subfield. -/
def div3W (code : Char) (v : String) : MarcWarning :=
  mws "041" code
    ("must be evenly divisible by 3 or exactly three characters if ind2 is not 7, "
      ++ v ++ ".")

/-- C6: a 041 field with indicator-2 `7` is skipped entirely; otherwise
every subfield is checked — a value of length not divisible by 3 yields
exactly the one divisibility warning (so the empty value never warns), and
a divisible value is split into consecutive 3-character codes, each sent
through the two-tier lookup, every resulting warning naming a non-current
code of the split and carrying both the full original value and that code
inside its message. -/
theorem c6_041_language_codes (f : Field) (h041 : f.tag = "041") :
    (∀ lang, dispatch f.tag lang f = check_041 f) ∧
    (f.ind2 = '7' → check_041 f = []) ∧
    (f.ind2 ≠ '7' → check_041 f = f.subfields.flatMap check041Sub) ∧
    ∀ sf ∈ f.subfields,
      (sf.value.length % 3 ≠ 0 → check041Sub sf = [div3W sf.code sf.value]) ∧
      (sf.value.length % 3 = 0 →
        check041Sub sf =
          (chunks3 sf.value.data).flatMap (langCodeWarn sf.code sf.value) ∧
        (chunks3 sf.value.data).flatMap String.data = sf.value.data ∧
        (∀ c ∈ chunks3 sf.value.data, c.length = 3) ∧
        (sf.value = "" → check041Sub sf = []) ∧
        ∀ w ∈ check041Sub sf, ∃ c ∈ chunks3 sf.value.data,
          c ∉ LanguageCodes ∧
          infixOf sf.value.data w.message.data ∧
          infixOf c.data w.message.data) := by
  refine ⟨fun lang => by rw [h041]; rfl, ?_, ?_, ?_⟩
  · intro h7
    simp [check_041, h7]
  · intro h7
    simp [check_041, h7]
  · intro sf _
    have hlen : sf.value.length = sf.value.data.length := rfl
    constructor
    · intro hnd
      simp [check041Sub, hnd, div3W]
    · intro hd
      have heq : check041Sub sf =
          (chunks3 sf.value.data).flatMap (langCodeWarn sf.code sf.value) := by
        simp [check041Sub, hd]
      have hdd : sf.value.data.length % 3 = 0 := by rw [← hlen]; exact hd
      refine ⟨heq, (chunks3_spec _ hdd).1, (chunks3_spec _ hdd).2, ?_, ?_⟩
      · intro hv
        rw [heq, hv]
        rfl
      · intro w hw
        rw [heq] at hw
        obtain ⟨c, hcmem, hcw⟩ := List.mem_flatMap.mp hw
        refine ⟨c, hcmem, ?_⟩
        by_cases hcur : c ∈ LanguageCodes
        · rw [langCodeWarn, if_pos hcur] at hcw
          cases hcw
        · refine ⟨hcur, ?_⟩
          rw [langCodeWarn, if_neg hcur] at hcw
          by_cases hobs : c ∈ ObsoleteLanguageCodes
          · rw [if_pos hobs] at hcw
            rcases List.mem_singleton.mp hcw with rfl
            constructor
            · exact ⟨[], (", may be obsolete." : String).data, by
                simp [mws, data_append]⟩
            · obtain ⟨pre, post, hio⟩ := chunks3_infixOf _ hdd c hcmem
              exact ⟨pre, post ++ (", may be obsolete." : String).data, by
                simp only [mws, data_append, hio]
                simp [List.append_assoc]⟩
          · rw [if_neg hobs] at hcw
            rcases List.mem_singleton.mp hcw with rfl
            constructor
            · exact ⟨[], (" (" ++ c ++ "), is not valid." : String).data, by
                simp [mws, data_append, List.append_assoc]⟩
            · exact ⟨sf.value.data ++ (" (" : String).data,
                ("), is not valid." : String).data, by
                simp [mws, data_append, List.append_assoc]⟩

/-- The indicator-2 `7` record field of `tests/test_041.py` case 8. -/
def f041skip : Field :=
  { tag := "041", ind1 := ' ', ind2 := '7',
    subfields := [⟨'a', "en"⟩, ⟨'2', "local"⟩] }

/-- A 041 field with a single `$a` holding the given value. -/
def f041a (v : String) : Field := { tag := "041", subfields := [⟨'a', v⟩] }

/-- C6 witness: the skip rule on the indicator-2 `7` record of
`tests/test_041.py`, the single divisibility warning on `en`, the empty
value staying silent, and the split of `engxxx` flagging exactly the code
`xxx`. -/
theorem c6_041_language_codes_witness :
    check_041 f041skip = [] ∧
    check041Sub ⟨'a', "en"⟩ = [div3W 'a' "en"] ∧
    check041Sub ⟨'a', ""⟩ = [] ∧
    check041Sub ⟨'a', "engxxx"⟩ =
      [mws "041" 'a' "engxxx (xxx), is not valid."] := by
  refine ⟨?_, ?_, ?_, ?_⟩
  · exact (c6_041_language_codes f041skip rfl).2.1 rfl
  · exact ((c6_041_language_codes (f041a "en") rfl).2.2.2
      ⟨'a', "en"⟩ (by decide)).1 (by decide)
  · exact (((c6_041_language_codes (f041a "") rfl).2.2.2
      ⟨'a', ""⟩ (by decide)).2 (by decide)).2.2.2.1 rfl
  · have := (((c6_041_language_codes (f041a "engxxx") rfl).2.2.2
      ⟨'a', "engxxx"⟩ (by decide)).2 (by decide)).1
    rw [this]
    decide

/-! ## C5: non-filing/article contract of the title-bearing fields -/

/-- The "may be an article" warning of spec §4.3.4. -/
def mayBeW (t : String) (w : String) (f : Field) : MarcWarning :=
  mw t ("First word, " ++ w ++ ", may be an article, check "
    ++ indName t ++ " indicator (" ++ (desigInd t f).toString ++ ").")

/-- The "does not appear to be an article" warning of spec §4.3.4. -/
def noArticleW (t : String) (w : String) (f : Field) : MarcWarning :=
  mw t ("First word, " ++ w ++ ", does not appear to be an article, check "
    ++ indName t ++ " indicator (" ++ (desigInd t f).toString ++ ").")

/-- The designated non-filing indicator agrees with an article word exactly
when it is the digit equal to the word's character count plus one. -/
def indMatches (t : String) (f : Field) (w : String) : Prop :=
  (desigInd t f).isDigit = true ∧
    (desigInd t f).toNat - ('0').toNat = w.length + 1

instance (t : String) (f : Field) (w : String) :
    Decidable (indMatches t f w) := by
  unfold indMatches
  infer_instance

/-- A title field's checker output contains its article component. -/
theorem checkArticle_sub_checkTitle (t : String) (lang : Option String)
    (f : Field) (w : MarcWarning) (hw : w ∈ checkArticle t lang f) :
    w ∈ checkTitle t lang f := by
  exact List.mem_append_right _ hw

/-- For a native title-bearing field, the dispatch runs the title checker. -/
theorem dispatch_title (t : String) (ht : t ∈ titleTags)
    (lang : Option String) (f : Field) :
    dispatch t lang f = checkTitle t lang f := by
  fin_cases ht <;> rfl

/-- C5: for a title-bearing field of a record whose 008 language has an
article list — when the leading word matches an article, a designated
indicator differing from the word's character count plus one puts the "may
be an article" warning into the record's warnings, and a matching one
yields no article judgment; when the word matches no article and the
indicator is non-zero, the "does not appear to be an article" warning is in
the record's warnings; when the language is absent from the article table,
no article judgment is emitted regardless of the indicator. -/
theorem c5_article_indicator (r : Record) (f : Field) (hf : f ∈ r.fields)
    (t : String) (htag : f.tag = t) (ht : t ∈ titleTags) (lg : String)
    (hlg : lang008 r = some lg) :
    (articleTable lg = none → checkArticle t (some lg) f = []) ∧
    (∀ arts w, articleTable lg = some arts → firstContentWord f = some w →
      (w ∈ arts → ¬ indMatches t f w → mayBeW t w f ∈ computeWarnings r) ∧
      (w ∈ arts → indMatches t f w → checkArticle t (some lg) f = []) ∧
      (w ∉ arts → desigInd t f ≠ '0' →
        noArticleW t w f ∈ computeWarnings r)) := by
  have hmem : ∀ x, x ∈ checkArticle t (some lg) f → x ∈ computeWarnings r := by
    intro x hx
    obtain ⟨ctx, hctx⟩ := mem_computeWarnings r f hf
    apply hctx
    apply mem_fieldW_of_dispatch (lang008 r) ctx f
      (by rw [htag]; fin_cases ht <;> decide)
    rw [htag, dispatch_title t ht, hlg]
    exact checkArticle_sub_checkTitle t (some lg) f x hx
  constructor
  · intro hnone
    rw [checkArticle.eq_def, show articleArts (some lg) = none from by
      simpa [articleArts] using hnone]
  · intro arts w harts hword
    have hba : articleArts (some lg) = some arts := by
      simpa [articleArts] using harts
    have harticle : checkArticle t (some lg) f =
        (if (desigInd t f).isDigit then [] else
          [mw t "Non-filing indicator is non-numeric"]) ++
        (if w ∈ arts then
          (if (desigInd t f).isDigit ∧
              (desigInd t f).toNat - ('0').toNat = w.length + 1 then []
           else [mayBeW t w f])
         else
          (if desigInd t f = '0' then [] else [noArticleW t w f])) := by
      rw [checkArticle.eq_def, hba, hword]
      rfl
    refine ⟨?_, ?_, ?_⟩
    · intro hin hmis
      apply hmem
      rw [harticle, if_pos hin,
        if_neg (show ¬ ((desigInd t f).isDigit = true ∧
          (desigInd t f).toNat - ('0').toNat = w.length + 1) from hmis)]
      exact List.mem_append_right _ (List.mem_singleton.mpr rfl)
    · intro hin hmat
      have hm : (desigInd t f).isDigit = true ∧
          (desigInd t f).toNat - ('0').toNat = w.length + 1 := hmat
      rw [harticle, if_pos hin, if_pos hm, if_pos hm.1]
      rfl
    · intro hout hnz
      apply hmem
      rw [harticle, if_neg hout, if_neg hnz]
      exact List.mem_append_right _ (List.mem_singleton.mpr rfl)

/-- An invalid-indicator 130 record of `tests/test_article_fields.py`:
English record, `The great book.` with indicator-1 zero. -/
def artRec130 : Record :=
  ⟨"00000nam  2200000   4500",
   [{ tag := "008", data := "230101s2023    xxu           000 0 eng d" },
    { tag := "130", ind1 := '0', ind2 := ' ',
      subfields := [⟨'a', "The great book."⟩] },
    { tag := "245", ind1 := '1', ind2 := '0',
      subfields := [⟨'a', "Title."⟩] }]⟩

/-- The 130 field of `artRec130`. -/
def f130art : Field :=
  { tag := "130", ind1 := '0', ind2 := ' ',
    subfields := [⟨'a', "The great book."⟩] }

/-- A Japanese-language record whose title starts with a German article
(`tests/test_article_fields.py`): no judgment since `jpn` has no list. -/
def artRecJpn : Record :=
  ⟨"00000nam  2200000   4500",
   [{ tag := "008", data := "230101s2023    xxu           000 0 jpn d" },
    { tag := "245", ind1 := '1', ind2 := '4',
      subfields := [⟨'a', "Die Hard."⟩] }]⟩

/-- The 245 field of `artRecJpn`. -/
def f245jpn : Field :=
  { tag := "245", ind1 := '1', ind2 := '4', subfields := [⟨'a', "Die Hard."⟩] }

/-- A 730 with a non-article first word and non-zero indicator-1
(`tests/test_article_fields.py`). -/
def artRec730 : Record :=
  ⟨"00000nam  2200000   4500",
   [{ tag := "008", data := "230101s2023    xxu           000 0 eng d" },
    { tag := "245", ind1 := '1', ind2 := '0',
      subfields := [⟨'a', "Title."⟩] },
    { tag := "730", ind1 := '4', ind2 := ' ',
      subfields := [⟨'a', "Book of hours."⟩] }]⟩

/-- The 730 field of `artRec730`. -/
def f730art : Field :=
  { tag := "730", ind1 := '4', ind2 := ' ',
    subfields := [⟨'a', "Book of hours."⟩] }

/-- C5 witness: the 130 mismatch record gets its "may be an article"
warning with actual indicator 0; the 730 non-article record gets "does not
appear to be an article"; the Japanese record gets no article component at
all. -/
theorem c5_article_indicator_witness :
    mayBeW "130" "the" f130art ∈ computeWarnings artRec130 ∧
    noArticleW "730" "book" f730art ∈ computeWarnings artRec730 ∧
    checkArticle "245" (some "jpn") f245jpn = [] := by
  refine ⟨?_, ?_, ?_⟩
  · exact ((c5_article_indicator artRec130 f130art (by decide) "130" rfl
      (by decide) "eng" (by decide)).2 ["a", "an", "the"] "the" rfl
      (by decide)).1 (by decide) (by decide)
  · exact ((c5_article_indicator artRec730 f730art (by decide) "730" rfl
      (by decide) "eng" (by decide)).2 ["a", "an", "the"] "book" rfl
      (by decide)).2.2 (by decide) (by decide)
  · exact (c5_article_indicator artRecJpn f245jpn (by decide) "245" rfl
      (by decide) "jpn" (by decide)).1 rfl

/-! ## Warning attribution: every warning names the tag it was checked as -/

/-- All warnings of a list satisfy a predicate. -/
def AllW (P : MarcWarning → Prop) (l : List MarcWarning) : Prop := ∀ w ∈ l, P w

theorem AllW.nil (P : MarcWarning → Prop) : AllW P [] :=
  fun w hw => absurd hw (List.not_mem_nil w)

theorem AllW.app {P : MarcWarning → Prop} {l1 l2 : List MarcWarning}
    (h1 : AllW P l1) (h2 : AllW P l2) : AllW P (l1 ++ l2) := by
  intro w hw
  rcases List.mem_append.mp hw with h | h
  exacts [h1 w h, h2 w h]

theorem AllW.ite {P : MarcWarning → Prop} {c : Prop} [Decidable c]
    {l1 l2 : List MarcWarning} (h1 : AllW P l1) (h2 : AllW P l2) :
    AllW P (if c then l1 else l2) := by
  split
  exacts [h1, h2]

theorem AllW.single {P : MarcWarning → Prop} {x : MarcWarning} (hx : P x) :
    AllW P [x] := by
  intro w hw
  rcases List.mem_singleton.mp hw with rfl
  exact hx

theorem AllW.fMap {P : MarcWarning → Prop} {α : Type} {l : List α}
    {g : α → List MarcWarning} (h : ∀ a ∈ l, AllW P (g a)) :
    AllW P (l.flatMap g) := by
  intro w hw
  obtain ⟨a, ha, hwa⟩ := List.mem_flatMap.mp hw
  exact h a ha w hwa

theorem AllW.lMap {P : MarcWarning → Prop} {α : Type} {l : List α}
    {g : α → MarcWarning} (h : ∀ a, P (g a)) : AllW P (l.map g) := by
  intro w hw
  obtain ⟨a, _, rfl⟩ := List.mem_map.mp hw
  exact h a

/-- Leader warnings are attributed to `LDR`. -/
theorem checkLeader_field (l : String) :
    AllW (fun w => w.field = "LDR") (checkLeader l) := by
  rw [checkLeader]
  refine AllW.ite (.single rfl) ?_
  exact .app (.app (.app (.app (.ite (.nil _) (.single rfl))
    (.ite (.nil _) (.single rfl))) (.ite (.nil _) (.single rfl)))
    (.ite (.nil _) (.single rfl))) (.ite (.nil _) (.single rfl))

/-- 008 warnings are attributed to `008`. -/
theorem check_008_field (d : String) :
    AllW (fun w => w.field = "008") (check_008 d) := by
  rw [check_008]
  refine AllW.ite (.single rfl) ?_
  refine .app (.app (.app (.app (.app (.ite (.nil _) (.single rfl))
    (.ite (.nil _) (.single rfl))) ?_) ?_)
    (.ite (.nil _) (.single rfl))) (.ite (.nil _) (.single rfl))
  · exact .ite (.nil _) (.ite (.nil _) (.ite (.single rfl) (.single rfl)))
  · exact .ite (.nil _) (.ite (.nil _) (.ite (.single rfl) (.single rfl)))

/-- 020 subfield warnings are attributed to `020`. -/
theorem check020Sub_field (sf : Subfield) :
    AllW (fun w => w.field = "020") (check020Sub sf) := by
  rw [check020Sub]
  refine AllW.ite ?_ (.ite (.ite (.single rfl) (.nil _)) (.nil _))
  refine .app (.app (.ite (.nil _) (.single rfl)) (.ite (.nil _) (.single rfl))) ?_
  exact .ite (.ite (.ite (.nil _) (.single rfl)) (.ite (.nil _) (.single rfl)))
    (.single rfl)

/-- 022 subfield warnings are attributed to `022`. -/
theorem check022Sub_field (sf : Subfield) :
    AllW (fun w => w.field = "022") (check022Sub sf) := by
  rw [check022Sub]
  refine AllW.ite (.ite (.single rfl) (.ite (.nil _) (.single rfl))) ?_
  refine .ite (.ite (.single rfl) (.nil _)) ?_
  exact .ite (.ite (.single rfl) (.nil _)) (.nil _)

/-- 041 subfield warnings are attributed to `041`. -/
theorem check041Sub_field (sf : Subfield) :
    AllW (fun w => w.field = "041") (check041Sub sf) := by
  rw [check041Sub]
  refine AllW.ite (.single rfl) (.fMap ?_)
  intro c _
  rw [langCodeWarn]
  exact .ite (.nil _) (.ite (.single rfl) (.single rfl))

/-- 043 subfield warnings are attributed to `043`. -/
theorem check043Sub_field (sf : Subfield) :
    AllW (fun w => w.field = "043") (check043Sub sf) := by
  rw [check043Sub]
  refine AllW.ite ?_ (.nil _)
  exact .ite (.single rfl) (.ite (.nil _) (.ite (.single rfl) (.single rfl)))

/-- Leading-subfield warnings are attributed to the checked tag. -/
theorem titleLeadFirst_field (t : String) (l : List Subfield) :
    AllW (fun w => w.field = t) (titleLeadFirst t l) := by
  match l with
  | [] => exact .nil _
  | [s0] =>
    rw [titleLeadFirst]
    exact .ite (.nil _) (.ite (.nil _) (.single rfl))
  | s0 :: s1 :: r2 =>
    rw [titleLeadFirst]
    exact .ite (.ite (.nil _) (.single rfl)) (.ite (.nil _) (.single rfl))

/-- Leading-subfield warnings are attributed to the checked tag. -/
theorem titleLeading_field (t : String) (f : Field) :
    AllW (fun w => w.field = t) (titleLeading t f) := by
  rw [titleLeading]
  exact AllW.app (.ite (.nil _) (.single rfl)) (titleLeadFirst_field t f.subfields)

/-- Terminal-punctuation warnings are attributed to the checked tag. -/
theorem titlePunctLast_field (t : String) (o : Option Char) :
    AllW (fun w => w.field = t) (titlePunctLast t o) := by
  match o with
  | none => exact .single rfl
  | some c =>
    rw [titlePunctLast]
    exact .ite (.nil _) (.ite (.single rfl) (.single rfl))

/-- Terminal-punctuation warnings are attributed to the checked tag. -/
theorem titlePunct_field (t : String) (f : Field) :
    AllW (fun w => w.field = t) (titlePunct t f) := by
  rw [titlePunct.eq_def]
  cases f.subfields.getLast? with
  | none => exact .nil _
  | some sf => exact titlePunctLast_field t _

/-- Preceding-punctuation warnings of one step are attributed to the tag. -/
theorem titlePrecOne_field (t : String) (prev : Subfield) (b : Bool)
    (s : Subfield) : AllW (fun w => w.field = t) (titlePrecOne t prev b s) := by
  rw [titlePrecOne]
  refine AllW.ite (.ite (.nil _) (.single rfl)) ?_
  refine .ite (.ite (.nil _) (.single rfl)) ?_
  refine .ite (.ite (.nil _) (.single rfl)) ?_
  refine .ite (.ite (.nil _) (.single rfl)) ?_
  refine .ite (.ite (.ite (.nil _) (.single rfl)) (.ite (.nil _) (.single rfl)))
    (.nil _)

/-- Preceding-punctuation warnings are attributed to the checked tag. -/
theorem titlePrecGo_field (t : String) :
    ∀ (l : List Subfield) (prev : Subfield) (b : Bool),
      AllW (fun w => w.field = t) (titlePrecGo t prev b l) := by
  intro l
  induction l with
  | nil => intro prev b; exact .nil _
  | cons s rest ih =>
    intro prev b
    rw [titlePrecGo]
    exact .app (titlePrecOne_field t prev b s) (ih s _)

/-- Article warnings are attributed to the checked tag. -/
theorem articleCore_field (t : String) (f : Field) (arts : List String)
    (w : String) : AllW (fun x => x.field = t) (articleCore t f arts w) := by
  rw [articleCore]
  refine AllW.app (.ite (.nil _) (.single rfl)) ?_
  exact .ite (.ite (.nil _) (.single rfl)) (.ite (.nil _) (.single rfl))

/-- Article warnings are attributed to the checked tag. -/
theorem checkArticle_field (t : String) (lang : Option String) (f : Field) :
    AllW (fun w => w.field = t) (checkArticle t lang f) := by
  rw [checkArticle.eq_def]
  cases articleArts lang with
  | none => exact .nil _
  | some arts =>
    cases firstContentWord f with
    | none => exact .nil _
    | some wd => exact articleCore_field t f arts wd

/-- Title-checker warnings are attributed to the checked tag. -/
theorem checkTitle_field (t : String) (lang : Option String) (f : Field) :
    AllW (fun w => w.field = t) (checkTitle t lang f) := by
  rw [checkTitle]
  refine AllW.app (.app (.app (titleLeading_field t f) (titlePunct_field t f)) ?_)
    (checkArticle_field t lang f)
  rw [titlePrec]
  cases f.subfields with
  | nil => exact .nil _
  | cons s0 rest => exact titlePrecGo_field t rest s0 false

/-- Dispatch-table warnings are attributed to the dispatched tag. -/
theorem dispatch_field (t : String) (lang : Option String) (f : Field) :
    AllW (fun w => w.field = t) (dispatch t lang f) := by
  rw [dispatch]
  split_ifs with h1 h2 h3 h4 h5 h6
  · rw [h1]; exact check_008_field _
  · rw [h2, check_020]; exact .fMap (fun sf _ => check020Sub_field sf)
  · rw [h3, check_022]; exact .fMap (fun sf _ => check022Sub_field sf)
  · rw [h4, check_041]
    exact .ite (.nil _) (.fMap (fun sf _ => check041Sub_field sf))
  · rw [h5, check_043]; exact .fMap (fun sf _ => check043Sub_field sf)
  · exact checkTitle_field t lang f
  · exact .nil _

/-- Indicator warnings are attributed to the checked tag. -/
theorem indWarn_field (t : String) (n : String) (rule : Option (List Char))
    (c : Char) : AllW (fun w => w.field = t) (indWarn t n rule c) := by
  rw [indWarn.eq_def]
  cases rule with
  | none => exact .nil _
  | some set => exact .ite (.nil _) (.single rfl)

/-- Generic structural warnings are attributed to the effective tag. -/
theorem genericW_field (occ : Nat) (g : Field) :
    AllW (fun w => w.field = effTag g) (genericW occ g) := by
  rw [genericW]
  refine AllW.app (.app (.app (indWarn_field _ _ _ _) (indWarn_field _ _ _ _)) ?_) ?_
  · exact .ite (.single rfl) (.nil _)
  · cases (fieldRules (effTag g)).allowed with
    | none => exact .nil _
    | some cs => exact .lMap (fun sf => rfl)

/-- Specialized-pass warnings are attributed to the effective tag. -/
theorem specialW_field (lang : Option String) (occ : Nat) (g : Field) :
    AllW (fun w => w.field = effTag g) (specialW lang occ g) := by
  rw [specialW]
  split_ifs with h880
  · cases hh : g.subfields.head? with
    | none =>
      refine AllW.single ?_
      simp [effTag, link880, h880, hh]
    | some s0 =>
      show AllW (fun w => w.field = effTag g)
        (if s0.code = '6' then
          match parse6 s0.value with
          | none => []
          | some t => dispatch t lang { g with tag := t }
        else
          [{ field := "880", position := some occ,
             message := "No subfield 6." }])
      by_cases hc : s0.code = '6'
      · rw [if_pos hc]
        cases hp : parse6 s0.value with
        | none => exact .nil _
        | some t2 =>
          have he : effTag g = t2 := by
            simp [effTag, link880, h880, hh, hc, hp]
          rw [he]
          exact dispatch_field t2 lang _
      · rw [if_neg hc]
        refine AllW.single ?_
        simp [effTag, link880, h880, hh, hc]
  · have he : effTag g = g.tag := by simp [effTag, link880, h880]
    rw [he]
    exact dispatch_field g.tag lang g

/-- Every warning of the per-field pass is attributed to the tag the field
is validated as (the effective tag after link resolution). -/
theorem fieldW_field (lang : Option String) (prior : List Field) (g : Field) :
    AllW (fun w => w.field = effTag g) (fieldW lang prior g) := by
  rw [fieldW]
  exact AllW.app (genericW_field _ g) (specialW_field lang _ g)

/-- No-245 warnings are attributed to 245. -/
theorem no245W_field (fields : List Field) :
    AllW (fun w => w.field = "245") (no245W fields) := by
  rw [no245W]
  exact .ite (.nil _) (.single rfl)

/-! ## Occurrence-counting lemmas for the sequenced pass -/

/-- A field that is not an 880 is validated under its own tag. -/
theorem effTag_non880 (g : Field) (h : g.tag ≠ "880") : effTag g = g.tag := by
  simp [effTag, link880, h]

/-- No occurrences counted when no field of the context has the tag. -/
theorem countEff_eq_zero (p : List Field) (t : String)
    (h : ∀ g ∈ p, effTag g ≠ t) : countEff p t = 0 := by
  rw [countEff, List.length_eq_zero, List.filter_eq_nil_iff]
  intro g hg
  simpa using h g hg

/-- Extending the context by one field adds one occurrence of its tag. -/
theorem countEff_append_one (p : List Field) (g : Field) (t : String) :
    countEff (p ++ [g]) t =
      countEff p t + (if effTag g = t then 1 else 0) := by
  rw [countEff, countEff, List.filter_append, List.length_append]
  congr 1
  by_cases h : effTag g = t <;> simp [h]

/-- The sequenced pass splits over a split of the field list. -/
theorem fieldsGo_append (lang : Option String) :
    ∀ (xs p ys : List Field),
      fieldsGo lang p (xs ++ ys) =
        fieldsGo lang p xs ++ fieldsGo lang (p ++ xs) ys := by
  intro xs
  induction xs with
  | nil => intro p ys; simp [fieldsGo]
  | cons x rest ih =>
    intro p ys
    rw [List.cons_append, fieldsGo, fieldsGo, ih (p ++ [x]) ys]
    simp [List.append_assoc]

/-- The per-field pass sees the context only through the occurrence count
of the field's effective tag. -/
theorem fieldW_congr (lang : Option String) (p1 p2 : List Field) (g : Field)
    (h : countEff p1 (effTag g) = countEff p2 (effTag g)) :
    fieldW lang p1 g = fieldW lang p2 g := by
  rw [fieldW, fieldW, h]

/-- The sequenced pass sees the context only through occurrence counts. -/
theorem fieldsGo_congr (lang : Option String) :
    ∀ (fs p1 p2 : List Field),
      (∀ g ∈ fs, countEff p1 (effTag g) = countEff p2 (effTag g)) →
      fieldsGo lang p1 fs = fieldsGo lang p2 fs := by
  intro fs
  induction fs with
  | nil => intro p1 p2 _; rfl
  | cons g rest ih =>
    intro p1 p2 h
    rw [fieldsGo, fieldsGo, fieldW_congr lang p1 p2 g (h g (by simp))]
    rw [ih (p1 ++ [g]) (p2 ++ [g])]
    intro g2 hg2
    rw [countEff_append_one, countEff_append_one, h g2 (by simp [hg2])]

/-- A property holding for every field's pass in every context holds over
the sequenced pass. -/
theorem fieldsGo_allW {Q : MarcWarning → Prop} (lang : Option String) :
    ∀ (fs p : List Field),
      (∀ g ∈ fs, ∀ p2 : List Field, AllW Q (fieldW lang p2 g)) →
      AllW Q (fieldsGo lang p fs) := by
  intro fs
  induction fs with
  | nil => intro p _; exact .nil _
  | cons g rest ih =>
    intro p h
    rw [fieldsGo]
    exact AllW.app (h g (by simp) p) (ih _ (fun g2 hg2 => h g2 (by simp [hg2])))

/-- Filtering drops a list whose warnings all fail the predicate. -/
theorem filter_allW_false {l : List MarcWarning} {p : MarcWarning → Bool}
    (h : ∀ w ∈ l, p w = false) : l.filter p = [] := by
  rw [List.filter_eq_nil_iff]
  intro w hw
  simp [h w hw]

/-- Filtering keeps a list whose warnings all satisfy the predicate. -/
theorem filter_allW_true {l : List MarcWarning} {p : MarcWarning → Bool}
    (h : ∀ w ∈ l, p w = true) : l.filter p = l :=
  List.filter_eq_self.mpr h

/-- A search for a tag fails when no field carries it. -/
theorem find?_none_of_all (q : Field → Bool) (l : List Field)
    (h : ∀ g ∈ l, q g = false) : l.find? q = none := by
  rw [List.find?_eq_none]
  intro g hg
  simp [h g hg]

/-- A search hits the first field carrying the tag. -/
theorem find?_first (q : Field → Bool) :
    ∀ (l1 : List Field) (x : Field) (l2 : List Field),
      (∀ g ∈ l1, q g = false) → q x = true →
      (l1 ++ x :: l2).find? q = some x := by
  intro l1
  induction l1 with
  | nil => intro x l2 _ hx; simp [List.find?, hx]
  | cons a rest ih =>
    intro x l2 h hx
    rw [List.cons_append, List.find?]
    rw [h a (by simp)]
    exact ih x l2 (fun g hg => h g (by simp [hg])) hx

/-! ## C7: malformed fixed-length input -/

/-- The leader length warning. -/
def ldrLenW : MarcWarning := mw "LDR" "Leader must be 24 characters."

/-- The 008 length warning. -/
def len008W : MarcWarning := mw "008" "008 must be 40 characters."

/-- C7: a leader that is not exactly 24 characters yields exactly the one
length warning, skipping the leader's position checks, and every other
check of the record runs unchanged — the full output is the length warning
followed by the output the same record gets with a conforming leader.  A
008 value that is not exactly 40 characters makes its checker emit exactly
the one length warning (conjunct two), and at record level the
008-attributed warnings are exactly that warning while the remaining
warnings equal the full output of the record with the 008 field removed
(conjunct three).  No error is raised anywhere: the checkers are total
functions into warning lists. -/
theorem c7_malformed_fixed_length (r : Record) :
    (r.leader.length ≠ 24 →
      computeWarnings r = ldrLenW :: computeWarnings ⟨stdLeader, r.fields⟩) ∧
    (∀ d : String, d.length ≠ 40 → check_008 d = [len008W]) ∧
    (∀ (pre : List Field) (f : Field) (post : List Field),
      r.fields = pre ++ f :: post → f.tag = "008" → f.data.length ≠ 40 →
      (∀ g, g ∈ pre ∨ g ∈ post → effTag g ≠ "008") →
      (computeWarnings r).filter (fun w => w.field == "008") = [len008W] ∧
      (computeWarnings r).filter (fun w => w.field != "008") =
        computeWarnings ⟨r.leader, pre ++ post⟩) := by
  have h008 : ∀ d : String, d.length ≠ 40 → check_008 d = [len008W] := by
    intro d hd
    rw [check_008, if_pos hd]
    rfl
  refine ⟨?_, h008, ?_⟩
  · intro h24
    rw [computeWarnings, computeWarnings]
    rw [show checkLeader r.leader = [ldrLenW] from by
      rw [checkLeader, if_pos h24]; rfl]
    rw [show (Record.mk stdLeader r.fields).leader = stdLeader from rfl]
    rw [show checkLeader stdLeader = [] from by decide]
    rfl
  · intro pre f post hsplit hf8 hlen hother
    have hf880 : f.tag ≠ "880" := by rw [hf8]; decide
    have hf8e : effTag f = "008" := by rw [effTag_non880 f hf880, hf8]
    have htag_ne : ∀ g : Field, effTag g ≠ "008" → (g.tag == "008") = false := by
      intro g hg
      rw [beq_eq_false_iff_ne]
      intro hgt
      exact hg (by rw [effTag_non880 g (by rw [hgt]; decide), hgt])
    have hpre8 : ∀ g ∈ pre, (g.tag == "008") = false :=
      fun g hg => htag_ne g (hother g (Or.inl hg))
    have hpost8 : ∀ g ∈ post, (g.tag == "008") = false :=
      fun g hg => htag_ne g (hother g (Or.inr hg))
    have hfind : r.fields.find? (fun g => g.tag == "008") = some f := by
      rw [hsplit]
      exact find?_first _ pre f post hpre8 (by rw [hf8]; rfl)
    have hlang : lang008 r = none := by
      rw [lang008, hfind]
      show (if f.data.length = 40 then some (strSlice f.data 35 3) else none)
        = none
      rw [if_neg hlen]
    have hproj : (Record.mk r.leader (pre ++ post)).fields = pre ++ post := rfl
    have hlang2 : lang008 ⟨r.leader, pre ++ post⟩ = none := by
      rw [lang008, hproj, find?_none_of_all _ _ (fun g hg => by
        rcases List.mem_append.mp hg with h | h
        exacts [hpre8 g h, hpost8 g h])]
    have hocc : countEff pre "008" = 0 :=
      countEff_eq_zero pre "008" (fun g hg => hother g (Or.inl hg))
    have hfw : fieldW none pre f = [len008W] := by
      rw [fieldW, hf8e, hocc]
      have hg0 : genericW 0 f = [] := by
        rw [genericW, hf8e]
        rfl
      have hs0 : specialW none 0 f = [len008W] := by
        rw [specialW, if_neg hf880, hf8]
        rw [show dispatch "008" none f = check_008 f.data from rfl]
        exact h008 f.data hlen
      rw [hg0, hs0]
      rfl
    have hskip : fieldsGo none (pre ++ [f]) post = fieldsGo none pre post := by
      apply fieldsGo_congr
      intro g hg
      rw [countEff_append_one, if_neg (by
        rw [hf8e]
        exact fun hc => hother g (Or.inr hg) hc.symm), Nat.add_zero]
    have hcw : computeWarnings r =
        checkLeader r.leader ++
          (fieldsGo none [] pre ++
            ([len008W] ++
              (fieldsGo none pre post ++ no245W (pre ++ f :: post)))) := by
      rw [computeWarnings, hlang, hsplit,
        fieldsGo_append none pre [] (f :: post)]
      simp only [fieldsGo, List.nil_append]
      rw [hskip, hfw]
      simp [List.append_assoc]
    have hallpre : ∀ g ∈ pre, ∀ p2 : List Field,
        AllW (fun w => w.field ≠ "008") (fieldW none p2 g) := by
      intro g hg p2 w hw
      rw [fieldW_field none p2 g w hw]
      exact hother g (Or.inl hg)
    have hallpost : ∀ g ∈ post, ∀ p2 : List Field,
        AllW (fun w => w.field ≠ "008") (fieldW none p2 g) := by
      intro g hg p2 w hw
      rw [fieldW_field none p2 g w hw]
      exact hother g (Or.inr hg)
    have hno245 : no245W (pre ++ f :: post) = no245W (pre ++ post) := by
      rw [no245W, no245W]
      have hany : (pre ++ f :: post).any (fun g => g.tag == "245") =
          (pre ++ post).any (fun g => g.tag == "245") := by
        simp [List.any_append, List.any_cons, hf8]
      rw [hany]
    constructor
    · have hfc : (checkLeader r.leader).filter (fun w => w.field == "008")
          = [] := filter_allW_false (fun w hw => by
        rw [show w.field = "LDR" from checkLeader_field _ w hw]; rfl)
      have hfpre : (fieldsGo none [] pre).filter (fun w => w.field == "008")
          = [] := filter_allW_false (fun w hw => by
        rw [beq_eq_false_iff_ne]
        exact fieldsGo_allW none pre [] hallpre w hw)
      have hfpost : (fieldsGo none pre post).filter (fun w => w.field == "008")
          = [] := filter_allW_false (fun w hw => by
        rw [beq_eq_false_iff_ne]
        exact fieldsGo_allW none post pre hallpost w hw)
      have hfno : (no245W (pre ++ f :: post)).filter (fun w => w.field == "008")
          = [] := filter_allW_false (fun w hw => by
        rw [show w.field = "245" from no245W_field _ w hw]; rfl)
      have hflen : List.filter (fun w => w.field == "008") [len008W]
          = [len008W] := by decide
      rw [hcw]
      simp only [List.filter_append]
      rw [hfc, hfpre, hfpost, hfno, hflen]
      rfl
    · have hfc : (checkLeader r.leader).filter (fun w => w.field != "008")
          = checkLeader r.leader := filter_allW_true (fun w hw => by
        rw [show w.field = "LDR" from checkLeader_field _ w hw]; rfl)
      have hfpre : (fieldsGo none [] pre).filter (fun w => w.field != "008")
          = fieldsGo none [] pre := filter_allW_true (fun w hw => by
        rw [bne_iff_ne]
        exact fieldsGo_allW none pre [] hallpre w hw)
      have hfpost : (fieldsGo none pre post).filter (fun w => w.field != "008")
          = fieldsGo none pre post := filter_allW_true (fun w hw => by
        rw [bne_iff_ne]
        exact fieldsGo_allW none post pre hallpost w hw)
      have hfno : (no245W (pre ++ f :: post)).filter (fun w => w.field != "008")
          = no245W (pre ++ f :: post) := filter_allW_true (fun w hw => by
        rw [show w.field = "245" from no245W_field _ w hw]; rfl)
      have hflen : List.filter (fun w => w.field != "008") [len008W]
          = [] := by decide
      rw [hcw]
      simp only [List.filter_append]
      rw [hfc, hfpre, hfpost, hfno, hflen, hno245]
      rw [computeWarnings,
        show (Record.mk r.leader (pre ++ post)).leader = r.leader from rfl,
        hproj, hlang2, fieldsGo_append none pre [] post, List.nil_append]
      simp [List.append_assoc]

/-- A 008 field with the too-short value of `tests/test_008.py`. -/
def f008short : Field := { tag := "008", data := "240101s2024" }

/-- C7 witness: the short leader of `tests/test_leader.py` yields the one
length warning on top of the conforming-leader output; the short 008 of
`tests/test_008.py` yields exactly its length warning, and at record level
the remaining warnings are those of the record without the 008 field. -/
theorem c7_malformed_fixed_length_witness :
    ("00000nam a22" : String).length ≠ 24 ∧
    computeWarnings ⟨"00000nam a22", [f008, f245]⟩ =
      ldrLenW :: computeWarnings ⟨stdLeader, [f008, f245]⟩ ∧
    check_008 "240101s2024" = [len008W] ∧
    (computeWarnings ⟨stdLeader, [f001, f008short, f245]⟩).filter
      (fun w => w.field == "008") = [len008W] ∧
    (computeWarnings ⟨stdLeader, [f001, f008short, f245]⟩).filter
      (fun w => w.field != "008") =
      computeWarnings ⟨stdLeader, [f001, f245]⟩ := by
  have h3 := (c7_malformed_fixed_length ⟨stdLeader, [f001, f008short, f245]⟩).2.2
    [f001] f008short [f245] rfl rfl (by decide) (by
      intro g hg
      rcases hg with h | h <;> rcases List.mem_singleton.mp h with rfl <;> decide)
  exact ⟨by decide,
    (c7_malformed_fixed_length ⟨"00000nam a22", [f008, f245]⟩).1 (by decide),
    (c7_malformed_fixed_length ⟨stdLeader, []⟩).2.1 "240101s2024" (by decide),
    h3.1, h3.2⟩

/-! ## C1: repeatability accounting across 880 links -/

/-- A warning is not the repeatability warning. -/
def NotRep (w : MarcWarning) : Prop :=
  w.message ≠ "Field is not repeatable."

/-- The merged repeatability warning for tag 245 at occurrence `i`. -/
def repeatW245 (i : Nat) : MarcWarning :=
  { field := "245", position := some i, message := "Field is not repeatable." }

/-- The repeatability warnings for tag 245 in a warning list. -/
def isRep245 (w : MarcWarning) : Bool :=
  w.field == "245" && w.message == "Field is not repeatable."

/-- A warning with another message is not counted. -/
theorem isRep245_false_msg {w : MarcWarning} (h : NotRep w) :
    isRep245 w = false := by
  rw [isRep245, show (w.message == "Field is not repeatable.") = false from
    beq_eq_false_iff_ne.mpr h]
  exact Bool.and_false _

/-- A warning attributed to another tag is not counted. -/
theorem isRep245_false_field {w : MarcWarning} (h : w.field ≠ "245") :
    isRep245 w = false := by
  rw [isRep245, show (w.field == "245") = false from beq_eq_false_iff_ne.mpr h]
  exact Bool.false_and _

/-- A plain warning with a different message text is not the repeat one. -/
theorem notRep_mw (t m : String) (hm : m ≠ "Field is not repeatable.") :
    NotRep (mw t m) := hm

/-- Indicator warnings never carry the repeatability message. -/
theorem indWarn_msg (t n : String) (rule : Option (List Char)) (c : Char) :
    AllW NotRep (indWarn t n rule c) := by
  rw [indWarn.eq_def]
  cases rule with
  | none => exact .nil _
  | some set =>
    refine .ite (.nil _) (.single ?_)
    show ("Indicator " ++ n ++ " must be " ++ renderSet set
      ++ " but it's \"" ++ c.toString ++ "\"") ≠ _
    simp only [strAppend_assoc]
    exact append_ne_of_take _ _ _ (by decide)

/-- Leading-subfield warnings never carry the repeatability message. -/
theorem titleLeading_msg (t : String) (f : Field) :
    AllW NotRep (titleLeading t f) := by
  rw [titleLeading]
  refine AllW.app (.ite (.nil _) (.single (notRep_mw _ _ (by decide)))) ?_
  match f.subfields with
  | [] => exact .nil _
  | [s0] =>
    rw [titleLeadFirst]
    refine .ite (.nil _) (.ite (.nil _) (.single ?_))
    show ("First subfield must be _a, but it is _"
      ++ s0.code.toString ++ ".") ≠ _
    simp only [strAppend_assoc]
    exact append_ne_of_take _ _ _ (by decide)
  | s0 :: s1 :: r2 =>
    rw [titleLeadFirst]
    refine .ite (.ite (.nil _) (.single ?_)) (.ite (.nil _) (.single ?_))
    · show ("First subfield after subfield _6 must be _a, but it is _"
        ++ s1.code.toString ++ ".") ≠ _
      simp only [strAppend_assoc]
      exact append_ne_of_take _ _ _ (by decide)
    · show ("First subfield must be _a, but it is _"
        ++ s0.code.toString ++ ".") ≠ _
      simp only [strAppend_assoc]
      exact append_ne_of_take _ _ _ (by decide)

/-- Terminal-punctuation warnings never carry the repeatability message. -/
theorem titlePunct_msg (t : String) (f : Field) :
    AllW NotRep (titlePunct t f) := by
  rw [titlePunct.eq_def]
  cases f.subfields.getLast? with
  | none => exact .nil _
  | some sf =>
    show AllW NotRep (titlePunctLast t ((rstrip sf.value).getLast?))
    cases (rstrip sf.value).getLast? with
    | none =>
      refine .single (notRep_mw _ _ ?_)
      decide
    | some c =>
      refine .ite (.nil _) (.ite (.single (notRep_mw _ _ ?_))
        (.single (notRep_mw _ _ ?_))) <;> decide

/-- Preceding-punctuation warnings never carry the repeatability message. -/
theorem titlePrecOne_msg (t : String) (prev : Subfield) (b : Bool)
    (s : Subfield) : AllW NotRep (titlePrecOne t prev b s) := by
  rw [titlePrecOne]
  refine AllW.ite (.ite (.nil _) (.single (notRep_mw _ _ (by decide)))) ?_
  refine .ite (.ite (.nil _) (.single (notRep_mw _ _ (by decide)))) ?_
  refine .ite (.ite (.nil _) (.single ?_)) ?_
  · show ("Subfield _h must have matching square brackets, "
      ++ s.code.toString ++ ".") ≠ _
    simp only [strAppend_assoc]
    exact append_ne_of_take _ _ _ (by decide)
  · refine .ite (.ite (.nil _) (.single (notRep_mw _ _ (by decide)))) ?_
    refine .ite (.ite (.ite (.nil _) (.single (notRep_mw _ _ (by decide))))
      (.ite (.nil _) (.single (notRep_mw _ _ (by decide))))) (.nil _)

/-- Preceding-punctuation warnings over a field never carry it. -/
theorem titlePrecGo_msg (t : String) :
    ∀ (l : List Subfield) (prev : Subfield) (b : Bool),
      AllW NotRep (titlePrecGo t prev b l) := by
  intro l
  induction l with
  | nil => intro prev b; exact .nil _
  | cons s rest ih =>
    intro prev b
    rw [titlePrecGo]
    exact .app (titlePrecOne_msg t prev b s) (ih s _)

/-- Article warnings never carry the repeatability message. -/
theorem articleCore_msg (t : String) (f : Field) (arts : List String)
    (w : String) : AllW NotRep (articleCore t f arts w) := by
  rw [articleCore]
  refine AllW.app (.ite (.nil _) (.single (notRep_mw _ _ (by decide)))) ?_
  refine .ite (.ite (.nil _) (.single ?_)) (.ite (.nil _) (.single ?_))
  · show ("First word, " ++ w ++ ", may be an article, check "
      ++ indName t ++ " indicator (" ++ (desigInd t f).toString ++ ").") ≠ _
    simp only [strAppend_assoc]
    exact append_ne_of_take _ _ _ (by decide)
  · show ("First word, " ++ w ++ ", does not appear to be an article, check "
      ++ indName t ++ " indicator (" ++ (desigInd t f).toString ++ ").") ≠ _
    simp only [strAppend_assoc]
    exact append_ne_of_take _ _ _ (by decide)

/-- Adding a field at the head adds one occurrence of its tag. -/
theorem countEff_cons (g : Field) (p : List Field) (t : String) :
    countEff (g :: p) t = (if effTag g = t then 1 else 0) + countEff p t := by
  rw [countEff, countEff, List.filter_cons]
  by_cases h : effTag g = t <;> simp [h, Nat.add_comm]

/-- Title-checker warnings never carry the repeatability message. -/
theorem checkTitle_msg (t : String) (lang : Option String) (f : Field) :
    AllW NotRep (checkTitle t lang f) := by
  rw [checkTitle]
  refine AllW.app (.app (.app (titleLeading_msg t f) (titlePunct_msg t f)) ?_) ?_
  · rw [titlePrec]
    cases f.subfields with
    | nil => exact .nil _
    | cons s0 rest => exact titlePrecGo_msg t rest s0 false
  · rw [checkArticle.eq_def]
    cases articleArts lang with
    | none => exact .nil _
    | some arts =>
      cases firstContentWord f with
      | none => exact .nil _
      | some wd => exact articleCore_msg t f arts wd

/-- The specialized pass of a field validated as 245 never emits the
repeatability message. -/
theorem specialW_msg245 (lang : Option String) (occ : Nat) (g : Field)
    (hg : effTag g = "245") : AllW NotRep (specialW lang occ g) := by
  rw [specialW]
  split_ifs with h880
  · cases hh : g.subfields.head? with
    | none =>
      exfalso
      have he : effTag g = "880" := by simp [effTag, link880, h880, hh]
      rw [hg] at he
      exact absurd he (by decide)
    | some s0 =>
      show AllW NotRep
        (if s0.code = '6' then
          match parse6 s0.value with
          | none => []
          | some t => dispatch t lang { g with tag := t }
        else
          [{ field := "880", position := some occ,
             message := "No subfield 6." }])
      by_cases hc : s0.code = '6'
      · rw [if_pos hc]
        cases hp : parse6 s0.value with
        | none => exact .nil _
        | some t2 =>
          have he2 : t2 = "245" := by
            have he : effTag g = t2 := by
              simp [effTag, link880, h880, hh, hc, hp]
            rw [hg] at he
            exact he.symm
          subst he2
          exact checkTitle_msg "245" lang { g with tag := "245" }
      · rw [if_neg hc]
        refine .single ?_
        show ("No subfield 6." : String) ≠ _
        decide
  · have htg : g.tag = "245" := by rw [← effTag_non880 g h880, hg]
    rw [htg, show dispatch "245" lang g = checkTitle "245" lang g from rfl]
    exact checkTitle_msg _ _ _

/-- Filtered repeatability warnings of a field validated as 245: exactly
the one warning at the current merged occurrence, when this is not the
first occurrence. -/
theorem fieldW_filter245 (lang : Option String) (prior : List Field)
    (g : Field) (hg : effTag g = "245") :
    (fieldW lang prior g).filter isRep245 =
      if 1 ≤ countEff prior "245" then [repeatW245 (countEff prior "245")]
      else [] := by
  rw [fieldW, hg, List.filter_append]
  have hspec : (specialW lang (countEff prior "245") g).filter isRep245 = [] :=
    filter_allW_false (fun w hw =>
      isRep245_false_msg (specialW_msg245 lang _ g hg w hw))
  rw [hspec, List.append_nil]
  rw [genericW, hg]
  simp only [List.filter_append]
  rw [show (indWarn "245" "1" (fieldRules "245").ind1 g.ind1).filter isRep245
      = [] from filter_allW_false (fun w hw =>
        isRep245_false_msg (indWarn_msg _ _ _ _ w hw))]
  rw [show (indWarn "245" "2" (fieldRules "245").ind2 g.ind2).filter isRep245
      = [] from filter_allW_false (fun w hw =>
        isRep245_false_msg (indWarn_msg _ _ _ _ w hw))]
  have hsub : ((match (fieldRules "245").allowed with
      | none => ([] : List MarcWarning)
      | some cs =>
        (g.subfields.filter (fun s : Subfield => ¬ s.code ∈ cs)).map
          (fun s : Subfield => mw "245" ("Subfield _" ++ s.code.toString
            ++ " is not allowed."))).filter isRep245) = [] := by
    apply filter_allW_false
    intro w hw
    apply isRep245_false_msg
    revert w hw
    show AllW NotRep _
    cases (fieldRules "245").allowed with
    | none => exact .nil _
    | some cs =>
      refine AllW.lMap (fun sf => ?_)
      refine notRep_mw _ _ ?_
      simp only [strAppend_assoc]
      exact append_ne_of_take _ _ _ (by decide)
  rw [hsub, List.append_nil, List.nil_append]
  by_cases hocc : 1 ≤ countEff prior "245"
  · rw [if_pos (show ¬ (fieldRules "245").repeatable = true ∧
        countEff prior "245" ≥ 1 from ⟨by decide, hocc⟩), if_pos hocc]
    rfl
  · rw [if_neg (fun hcond => hocc hcond.2), if_neg hocc]
    rfl

/-- The repeatability warnings of the sequenced pass are exactly one per
occurrence after the first of the merged 245 occurrence sequence, in
first-seen order. -/
theorem fieldsGo_filter_rep (lang : Option String) :
    ∀ (fs prior : List Field),
      (fieldsGo lang prior fs).filter isRep245 =
        ((List.range' (countEff prior "245") (countEff fs "245")).filter
          (fun i => 1 ≤ i)).map repeatW245 := by
  intro fs
  induction fs with
  | nil => intro prior; rfl
  | cons g rest ih =>
    intro prior
    rw [fieldsGo, List.filter_append, ih (prior ++ [g]), countEff_cons,
      countEff_append_one]
    by_cases hg : effTag g = "245"
    · rw [fieldW_filter245 lang prior g hg, if_pos hg,
        Nat.add_comm 1 (countEff rest "245"), List.range'_succ,
        List.filter_cons]
      by_cases hocc : 1 ≤ countEff prior "245"
      · rw [if_pos hocc, if_pos (by simpa using hocc), List.map_cons]
        rfl
      · rw [if_neg hocc, if_neg (by simpa using hocc)]
        rfl
    · rw [if_neg hg, Nat.add_zero, Nat.zero_add]
      have hfw : (fieldW lang prior g).filter isRep245 = [] :=
        filter_allW_false (fun w hw =>
          isRep245_false_field (by
            rw [fieldW_field lang prior g w hw]
            exact hg))
      rw [hfw, List.nil_append]

/-- C1: repeatability accounting merges 880-linked occurrences into the
originating tag's occurrence sequence in first-seen order — the record's
"Field is not repeatable." warnings for tag 245 are exactly one warning per
merged occurrence after the first, positioned at that occurrence index; in
particular a record with exactly two merged occurrences (for example two
880 fields both linking to 245, or one native 245 plus one linked) gets
exactly one such warning, attributed to the second occurrence. -/
theorem c1_repeat_merge (r : Record) :
    (computeWarnings r).filter isRep245 =
      ((List.range' 0 (countEff r.fields "245")).filter (fun i => 1 ≤ i)).map
        repeatW245 ∧
    (countEff r.fields "245" = 2 →
      (computeWarnings r).filter isRep245 = [repeatW245 1]) := by
  have hmain : (computeWarnings r).filter isRep245 =
      ((List.range' 0 (countEff r.fields "245")).filter (fun i => 1 ≤ i)).map
        repeatW245 := by
    rw [computeWarnings]
    simp only [List.filter_append]
    rw [show (checkLeader r.leader).filter isRep245 = [] from
      filter_allW_false (fun w hw => isRep245_false_field
        (by rw [checkLeader_field _ w hw]; decide))]
    rw [show (no245W r.fields).filter isRep245 = [] from by
      rw [no245W]; split_ifs <;> decide]
    rw [fieldsGo_filter_rep (lang008 r) r.fields []]
    simp [countEff]
  exact ⟨hmain, fun h2 => by rw [hmain, h2]; decide⟩

/-- The two 880 fields of `tests/test_880.py` case 5, both linking 245. -/
def f880lnk (occtok : String) (v : String) : Field :=
  { tag := "880", ind1 := '1', ind2 := '0',
    subfields := [⟨'6', occtok⟩, ⟨'a', v⟩] }

/-- C1 witness: a record whose only merged 245 occurrences are two 880
fields linking `245-01` and `245-02` — both hypotheses discharged by
evaluation — produces exactly the one repeatability warning, on the second
occurrence. -/
theorem c1_repeat_merge_witness :
    countEff [f001, f008, f880lnk "245-01/$1" "First alternate.",
      f880lnk "245-02/$1" "Second alternate."] "245" = 2 ∧
    (computeWarnings ⟨stdLeader,
      [f001, f008, f880lnk "245-01/$1" "First alternate.",
       f880lnk "245-02/$1" "Second alternate."]⟩).filter isRep245 =
      [repeatW245 1] :=
  ⟨by decide,
   (c1_repeat_merge ⟨stdLeader,
      [f001, f008, f880lnk "245-01/$1" "First alternate.",
       f880lnk "245-02/$1" "Second alternate."]⟩).2 (by decide)⟩

/-- The record of `tests/test_880.py` case 5: a native 245 plus two 880
fields linking to 245 — three merged occurrences. -/
def c1cexRec : Record :=
  ⟨stdLeader,
   [f001, f008,
    { tag := "245", ind1 := '1', ind2 := '0', subfields := [⟨'a', "Title."⟩] },
    f880lnk "245-01/$1" "First alternate.",
    f880lnk "245-02/$1" "Second alternate."]⟩

/-- C1 counterexample: this record contains two 880 fields whose `$6` both
reference the non-repeatable tag 245, yet validation produces two
"Field is not repeatable." warnings (at merged occurrences 2 and 3), not
exactly one. -/
theorem c1_repeat_merge_counterexample :
    (c1cexRec.fields.filter (fun g => g.tag == "880")).length = 2 ∧
    (∀ g ∈ c1cexRec.fields, g.tag = "880" → effTag g = "245") ∧
    (computeWarnings c1cexRec).filter isRep245 =
      [repeatW245 1, repeatW245 2] ∧
    ((computeWarnings c1cexRec).filter isRep245).length ≠ 1 := by
  refine ⟨by decide, by decide, by decide, ?_⟩
  rw [show (computeWarnings c1cexRec).filter isRep245 =
    [repeatW245 1, repeatW245 2] from by decide]
  decide




end MarcLint
